import Mathlib

/-!
Shallow embedding of the Rush Generate/Install orchestration core
(`src/rush/rush/src/actions/GenerateAction.ts` and
`src/rush/rush/src/actions/InstallAction.ts`) together with proofs of the
specification claims about it.

JSON objects (dependency maps, shrinkwrap entries) are embedded as
association lists `List (String × _)`; JavaScript property access
`obj[key]` becomes `lookupDep`.  External collaborators (the semver
library, the rush-lib utilities) are either taken as parameters or
modelled from the specification, as documented on each definition.
-/

namespace Rush

/-- JavaScript object property access on an association list:
`obj[key]` returns the value at `key`, or `undefined` (here `none`). -/
def lookupDep {α : Type} (d : List (String × α)) (k : String) : Option α :=
  (d.find? (fun kv => kv.1 == k)).map (fun kv => kv.2)

/-! ## Shrinkwrap (lock file) model — `GenerateAction.ts` lines 27-38 -/

/-- `IShrinkwrapDependency` from `GenerateAction.ts`: fields `version`,
`from`, `resolved`, and a recursive `dependencies` object (which the code
at line 214 guards for truthiness, hence `Option`). -/
inductive IShrinkwrapDependency : Type where
  | mk (version : String) (fromRange : String) (resolved : String)
       (dependencies : Option (List (String × IShrinkwrapDependency)))

def IShrinkwrapDependency.version : IShrinkwrapDependency → String
  | .mk v _ _ _ => v

def IShrinkwrapDependency.dependencies :
    IShrinkwrapDependency → Option (List (String × IShrinkwrapDependency))
  | .mk _ _ _ d => d

/-- `IShrinkwrapFile` from `GenerateAction.ts` lines 27-31. -/
structure IShrinkwrapFile : Type where
  name : String
  version : String
  dependencies : List (String × IShrinkwrapDependency)

/-- `GenerateAction._canFindDependencyInShrinkwrap` (lines 204-222).
The semver library is external; its range-satisfaction test is passed in
as `satisfies : version → range → Bool`.  The dependency is looked up
nested under `rushPackageName` when that entry and its `dependencies`
object exist; JavaScript `shrinkwrapDependency || shrinkwrap.dependencies[dependency]`
falls back to the root-level entry only when the nested lookup produced
`undefined`; `shrinkwrapDependency && semver.satisfies(...)` yields false
when no entry was found. -/
def canFindDependencyInShrinkwrap (satisfies : String → String → Bool)
    (shrinkwrap : IShrinkwrapFile) (dependency : String) (version : String)
    (rushPackageName : String) : Bool :=
  let nested : Option IShrinkwrapDependency :=
    match lookupDep shrinkwrap.dependencies rushPackageName with
    | some entry =>
      match entry.dependencies with
      | some deps => lookupDep deps dependency
      | none => none
    | none => none
  let found : Option IShrinkwrapDependency :=
    match nested with
    | some d => some d
    | none => lookupDep shrinkwrap.dependencies dependency
  match found with
  | some d => satisfies d.version version
  | none => false

/-- One entry of the `tempModules` map consumed by
`GenerateAction._shouldDeleteNodeModules`: the map key (`packageName`),
the project's `tempProjectName` obtained via `projectsByName`, and the
temp module manifest's `dependencies` object. -/
structure TempModuleEntry : Type where
  packageName : String
  tempProjectName : String
  dependencies : List (String × String)

/-- `GenerateAction._shouldDeleteNodeModules` (lines 163-202) for the case
where the shrinkwrap file was found and parsed; the code's `forEach`
accumulation of `hasFoundMissingDependency` is the `List.any` of the
negated lookups. -/
def shouldDeleteNodeModulesWithShrinkwrap (satisfies : String → String → Bool)
    (shrinkwrap : IShrinkwrapFile) (tempModules : List TempModuleEntry) : Bool :=
  tempModules.any (fun tm =>
    tm.dependencies.any (fun dv =>
      !(canFindDependencyInShrinkwrap satisfies shrinkwrap dv.1 dv.2 tm.tempProjectName)))

/-- `GenerateAction._shouldDeleteNodeModules` (lines 163-202): `none`
models `fsx.existsSync(shrinkwrapFile)` being false (line 172), which
returns `true` before any dependency is examined. -/
def shouldDeleteNodeModules (satisfies : String → String → Bool)
    (shrinkwrap : Option IShrinkwrapFile) (tempModules : List TempModuleEntry) : Bool :=
  match shrinkwrap with
  | none => true
  | some sw => shouldDeleteNodeModulesWithShrinkwrap satisfies sw tempModules

/-- The spec's `InstallDecision` enum (spec §3); `Skip` is listed in the
data model but the satisfaction analysis only ever produces the other
two. -/
inductive InstallDecision : Type where
  | Skip
  | FastInstall
  | FullReinstall
  deriving DecidableEq, Repr

/-- The decision derived from `_shouldDeleteNodeModules` in
`GenerateAction.onExecute` (lines 273-278): a true result means the
`node_modules` folder is deleted and fully reinstalled. -/
def generateInstallDecision (satisfies : String → String → Bool)
    (shrinkwrap : Option IShrinkwrapFile) (tempModules : List TempModuleEntry) :
    InstallDecision :=
  if shouldDeleteNodeModules satisfies shrinkwrap tempModules then
    InstallDecision.FullReinstall
  else
    InstallDecision.FastInstall

/-! ### Spec-side definitions for the satisfaction analysis (spec §4.3),
written from the spec's words, to be compared with the code-side
definitions above. -/

/-- Spec §4.3: the lock-file entry is looked up nested under
`consumerTempProjectName`'s subtree first; only if absent there does a
root-level entry for `dependencyName` apply. -/
def specLockFileLookup (shrinkwrap : IShrinkwrapFile)
    (consumerTempProjectName : String) (dependencyName : String) :
    Option IShrinkwrapDependency :=
  let nested : Option IShrinkwrapDependency :=
    match lookupDep shrinkwrap.dependencies consumerTempProjectName with
    | some entry =>
      match entry.dependencies with
      | some deps => lookupDep deps dependencyName
      | none => none
    | none => none
  match nested with
  | some d => some d
  | none => lookupDep shrinkwrap.dependencies dependencyName

/-- Spec §4.3: a triple is unsatisfied exactly when no entry exists or the
found entry's resolved version does not satisfy the required range. -/
def specTripleUnsatisfied (satisfies : String → String → Bool)
    (shrinkwrap : IShrinkwrapFile) (consumerTempProjectName : String)
    (dependencyName : String) (requiredRange : String) : Prop :=
  match specLockFileLookup shrinkwrap consumerTempProjectName dependencyName with
  | none => True
  | some entry => ¬ (satisfies entry.version requiredRange = true)

/-- The code's lookup agrees with the spec's two-stage (nested first, then
root) lookup: the two definitions share the search order definitionally. -/
theorem canFind_eq_specLookup (satisfies : String → String → Bool)
    (sw : IShrinkwrapFile) (tpn dep range : String) :
    canFindDependencyInShrinkwrap satisfies sw dep range tpn =
      (match specLockFileLookup sw tpn dep with
       | some d => satisfies d.version range
       | none => false) := rfl

/-- A triple is unsatisfied in the spec's sense exactly when the code's
`_canFindDependencyInShrinkwrap` returns false on it. -/
theorem specTripleUnsatisfied_iff_not_canFind (satisfies : String → String → Bool)
    (sw : IShrinkwrapFile) (tpn dep range : String) :
    specTripleUnsatisfied satisfies sw tpn dep range ↔
      ¬ (canFindDependencyInShrinkwrap satisfies sw dep range tpn = true) := by
  rw [canFind_eq_specLookup]
  unfold specTripleUnsatisfied
  cases specLockFileLookup sw tpn dep <;> simp

/-- C1: with a present lock file, the code's lookup checks the consumer's
nested subtree first with root-level fallback, a triple is unsatisfied
exactly when no entry is found or its resolved version fails the range
check, and the decision is FullReinstall precisely when some triple is
unsatisfied (FastInstall otherwise). -/
theorem satisfaction_analysis_matches_spec (satisfies : String → String → Bool)
    (sw : IShrinkwrapFile) (tempModules : List TempModuleEntry) :
    (∀ tpn dep range,
      canFindDependencyInShrinkwrap satisfies sw dep range tpn = true ↔
        ∃ entry, specLockFileLookup sw tpn dep = some entry ∧
          satisfies entry.version range = true) ∧
    (generateInstallDecision satisfies (some sw) tempModules = InstallDecision.FullReinstall ↔
      ∃ tm ∈ tempModules, ∃ dv ∈ tm.dependencies,
        specTripleUnsatisfied satisfies sw tm.tempProjectName dv.1 dv.2) ∧
    (generateInstallDecision satisfies (some sw) tempModules = InstallDecision.FastInstall ↔
      ¬ ∃ tm ∈ tempModules, ∃ dv ∈ tm.dependencies,
        specTripleUnsatisfied satisfies sw tm.tempProjectName dv.1 dv.2) := by
  have hexists : shouldDeleteNodeModulesWithShrinkwrap satisfies sw tempModules = true ↔
      ∃ tm ∈ tempModules, ∃ dv ∈ tm.dependencies,
        specTripleUnsatisfied satisfies sw tm.tempProjectName dv.1 dv.2 := by
    unfold shouldDeleteNodeModulesWithShrinkwrap
    rw [List.any_eq_true]
    constructor
    · rintro ⟨tm, htm, h⟩
      rw [List.any_eq_true] at h
      obtain ⟨dv, hdv, h2⟩ := h
      refine ⟨tm, htm, dv, hdv, ?_⟩
      rw [specTripleUnsatisfied_iff_not_canFind]
      simpa using h2
    · rintro ⟨tm, htm, dv, hdv, h⟩
      rw [specTripleUnsatisfied_iff_not_canFind] at h
      exact ⟨tm, htm, List.any_eq_true.mpr ⟨dv, hdv, by simpa using h⟩⟩
  refine ⟨?_, ?_, ?_⟩
  · intro tpn dep range
    rw [canFind_eq_specLookup]
    cases h : specLockFileLookup sw tpn dep <;> simp
  · rw [← hexists]
    unfold generateInstallDecision shouldDeleteNodeModules
    by_cases h : shouldDeleteNodeModulesWithShrinkwrap satisfies sw tempModules = true <;>
      simp [h]
  · rw [← hexists]
    unfold generateInstallDecision shouldDeleteNodeModules
    by_cases h : shouldDeleteNodeModulesWithShrinkwrap satisfies sw tempModules = true <;>
      simp [h]

/-- C9: an absent lock file yields the FullReinstall decision immediately,
uniformly in the temp modules (and in the semver oracle): no dependency
triple is examined. -/
theorem absent_shrinkwrap_full_reinstall :
    ∀ (satisfies : String → String → Bool) (tempModules : List TempModuleEntry),
      shouldDeleteNodeModules satisfies none tempModules = true ∧
      generateInstallDecision satisfies none tempModules = InstallDecision.FullReinstall := by
  intro satisfies tempModules
  exact ⟨rfl, rfl⟩

/-! ## Install state machine — `InstallAction._installCommonModules`
(`InstallAction.ts` lines 228-353)

The run is embedded as the list of observable filesystem/subprocess
actions it performs, in order, plus the error (thrown exception) that
ended it, if any.  Exit codes of the external installer are supplied by
the environment as a function of the 1-based attempt index. -/

/-- `MAX_INSTALL_ATTEMPTS` (`InstallAction.ts` line 27). -/
def MAX_INSTALL_ATTEMPTS : Nat := 5

/-- The installer subcommands invoked by the two actions. -/
inductive NpmCommand : Type where
  | install
  | prune
  | cacheClean
  | shrinkwrap
  deriving DecidableEq, Repr

inductive InstallError : Type where
  /-- The sanity check at `InstallAction.ts` line 231: the npm tool
  filename does not exist. -/
  | npmToolMissing
  /-- `Utilities.executeCommand` threw: the single invocation of the
  command exited nonzero. -/
  | commandFailed (cmd : NpmCommand)
  /-- `Utilities.executeCommandWithRetry` threw: every attempt up to
  `MAX_INSTALL_ATTEMPTS` exited nonzero. -/
  | installerFailure (cmd : NpmCommand)
  deriving DecidableEq, Repr

/-- Observable actions of `_installCommonModules`, in program order. -/
inductive Event : Type where
  /-- `fsx.unlinkSync(commonNodeModulesMarkerFilename)` (line 250 or 310). -/
  | deleteMarker
  /-- `Utilities.dangerouslyDeletePath(commonNodeModulesFolder)` (line 256). -/
  | deleteNodeModulesDir
  /-- `Utilities.createFolderWithRetry(commonNodeModulesFolder)` (line 257). -/
  | createNodeModulesDir
  /-- `npm cache clean` via `Utilities.executeCommand` (line 263). -/
  | runCacheClean
  /-- `AsyncRecycle.recycleDirectory(..., commonNodeModulesFolder)` (line 304). -/
  | recycleNodeModules
  /-- One attempt of `npm prune` inside `executeCommandWithRetry` (line 315). -/
  | runPrune (attempt : Nat)
  /-- Deletion of the `node_modules/rush-*` temp project folders (lines 322-329). -/
  | deleteTempProjectDirs
  /-- One attempt of `npm install` inside `executeCommandWithRetry` (line 343). -/
  | runInstall (attempt : Nat)
  /-- `fsx.createFileSync(commonNodeModulesMarkerFilename)` (line 349):
  the zero-content marker file is created. -/
  | createMarker
  deriving DecidableEq, Repr

structure InstallResult : Type where
  events : List Event
  error : Option InstallError
  deriving DecidableEq, Repr

/-- The environment of one `_installCommonModules` run: command-line
flags, the relevant filesystem facts at entry, and the exit code each
installer subprocess invocation would produce (indexed by 1-based attempt
number). -/
structure InstallEnv : Type where
  /-- `this._cleanInstall.value` (`--clean`). -/
  cleanInstall : Bool
  /-- `this._cleanInstallFull.value` (`--full-clean`). -/
  cleanInstallFull : Bool
  /-- `fsx.existsSync(npmToolFilename)` (line 231). -/
  npmToolExists : Bool
  /-- `fsx.existsSync(commonNodeModulesMarkerFilename)` at entry. -/
  markerExists : Bool
  /-- Modification time of the marker file (meaningful when it exists). -/
  markerMtime : Nat
  /-- `fsx.existsSync(commonNodeModulesFolder)` at entry. -/
  nodeModulesExists : Bool
  /-- Modification time of `common/package.json`. -/
  commonPackageJsonMtime : Nat
  /-- Modification time of the `common/node_modules` folder. -/
  nodeModulesMtime : Nat
  /-- Modification times of the `temp_modules/*/package.json` files
  (`this._tempModulesFiles`). -/
  tempModulesMtimes : List Nat
  /-- `this._rushConfiguration.cacheFolder` is configured (truthy). -/
  cacheFolderConfigured : Bool
  /-- Exit code of the i-th would-be `npm cache clean` attempt; the code
  invokes it at most once, so only index 1 is ever consulted. -/
  cacheCleanExit : Nat → Nat
  /-- Exit code of the i-th `npm prune` attempt. -/
  pruneExit : Nat → Nat
  /-- Exit code of the i-th `npm install` attempt. -/
  installExit : Nat → Nat

/-- Modelled from the spec: §4.4 retry policy, for
`Utilities.executeCommandWithRetry` of rush-lib, which is not under
`src/`: the command is invoked repeatedly, up to the given maximum number
of attempts with no backoff; this returns the 1-based index of the first
attempt that exits 0.  `start` is the index of the next attempt and
`remaining` the number of attempts still allowed. -/
def firstSuccessAux (exit : Nat → Nat) (start : Nat) : Nat → Option Nat
  | 0 => none
  | remaining + 1 =>
    if exit start = 0 then some start else firstSuccessAux exit (start + 1) remaining

/-- The 1-based index of the first attempt (of at most `maxAttempts`)
that exits 0, or `none` when every allowed attempt exits nonzero. -/
def firstSuccessfulAttempt (exit : Nat → Nat) (maxAttempts : Nat) : Option Nat :=
  firstSuccessAux exit 1 maxAttempts

/-- The attempts actually performed by `executeCommandWithRetry` (one
event per attempt, in order) and whether the command finally succeeded. -/
def retryEvents (mk : Nat → Event) (exit : Nat → Nat) (maxAttempts : Nat) :
    List Event × Bool :=
  match firstSuccessfulAttempt exit maxAttempts with
  | some k => ((List.range k).map (fun i => mk (i + 1)), true)
  | none => ((List.range maxAttempts).map (fun i => mk (i + 1)), false)

/-- Lines 332-350 of `InstallAction.ts`: run `npm install` with retry;
on success create the marker file (the final action of the run), on
exhausted retries throw, leaving the marker absent. -/
def installPhase (env : InstallEnv) : InstallResult :=
  let r := retryEvents Event.runInstall env.installExit MAX_INSTALL_ATTEMPTS
  if r.2 then
    { events := r.1 ++ [Event.createMarker], error := none }
  else
    { events := r.1, error := some (InstallError.installerFailure NpmCommand.install) }

/-- Lines 292-351 of `InstallAction.ts`, entered with `needToInstall`
true.  `markerNow` and `nodeModulesNow` are the existence of the marker
file and of `common/node_modules` at this point (the clean branch has
already deleted the marker and recreated the folder).  If the marker is
absent, a present `node_modules` is recycled and pruning is skipped;
otherwise the marker is deleted first.  Pruning (when not skipped) runs
`npm prune` with retry and then deletes the `rush-*` temp project
folders. -/
def needInstallPhase (env : InstallEnv) (markerNow nodeModulesNow skipPrune0 : Bool) :
    InstallResult :=
  let a :=
    if markerNow then ([Event.deleteMarker], skipPrune0)
    else ((if nodeModulesNow then [Event.recycleNodeModules] else []), true)
  if a.2 then
    let r := installPhase env
    { events := a.1 ++ r.events, error := r.error }
  else
    let p := retryEvents Event.runPrune env.pruneExit MAX_INSTALL_ATTEMPTS
    if p.2 then
      let r := installPhase env
      { events := a.1 ++ p.1 ++ [Event.deleteTempProjectDirs] ++ r.events
        error := r.error }
    else
      { events := a.1 ++ p.1
        error := some (InstallError.installerFailure NpmCommand.prune) }

/-- Modelled from the spec: §4.4 step 3, for rush-lib's
`Utilities.isFileTimestampCurrent` (not under `src/`): the marker is
current when it exists and none of the compared files (the common
`package.json`, the `node_modules` folder, and every temp module
`package.json`) has a modification time newer than the marker's. -/
def isFileTimestampCurrent (env : InstallEnv) : Bool :=
  env.markerExists &&
    decide (env.commonPackageJsonMtime ≤ env.markerMtime) &&
    decide (env.nodeModulesMtime ≤ env.markerMtime) &&
    env.tempModulesMtimes.all (fun t => decide (t ≤ env.markerMtime))

/-- The `needToInstall` flag of `_installCommonModules` (lines 243-290):
true in the clean branch, and otherwise true exactly when the timestamp
check fails. -/
def needToInstall (env : InstallEnv) : Bool :=
  env.cleanInstall || env.cleanInstallFull || !(isFileTimestampCurrent env)

/-- `InstallAction._installCommonModules` (lines 228-353).  The clean
branch deletes the marker (if present), deletes and recreates
`node_modules` (if present), and runs `npm cache clean` once — without
retry — when a cache folder is configured; then the install proceeds with
`skipPrune` set.  The non-clean branch installs only when the timestamp
check fails. -/
def installCommonModules (env : InstallEnv) : InstallResult :=
  if !env.npmToolExists then
    { events := [], error := some InstallError.npmToolMissing }
  else if env.cleanInstall || env.cleanInstallFull then
    let ev1 :=
      (if env.markerExists then [Event.deleteMarker] else []) ++
      (if env.nodeModulesExists then
        [Event.deleteNodeModulesDir, Event.createNodeModulesDir] else [])
    if env.cacheFolderConfigured then
      if env.cacheCleanExit 1 = 0 then
        let r := needInstallPhase env false env.nodeModulesExists true
        { events := ev1 ++ [Event.runCacheClean] ++ r.events, error := r.error }
      else
        { events := ev1 ++ [Event.runCacheClean]
          error := some (InstallError.commandFailed NpmCommand.cacheClean) }
    else
      let r := needInstallPhase env false env.nodeModulesExists true
      { events := ev1 ++ r.events, error := r.error }
  else if needToInstall env then
    needInstallPhase env env.markerExists env.nodeModulesExists false
  else
    { events := [], error := none }

/-- Marker-file presence after replaying a list of events on top of an
initial presence value. -/
def applyEvent (marker : Bool) : Event → Bool
  | Event.deleteMarker => false
  | Event.createMarker => true
  | _ => marker

def markerAfter (init : Bool) (events : List Event) : Bool :=
  events.foldl applyEvent init

/-- The events that destroy state or invoke the installer; the marker
must never be present while one of these runs. -/
def isDestructiveOrInstaller : Event → Bool
  | Event.deleteNodeModulesDir => true
  | Event.runCacheClean => true
  | Event.recycleNodeModules => true
  | Event.runPrune _ => true
  | Event.deleteTempProjectDirs => true
  | Event.runInstall _ => true
  | _ => false

/-- Checks that at each event of the list, if the event is destructive or
an installer invocation, the marker is absent at that moment. -/
def markerNeverPresentDuring (init : Bool) : List Event → Bool
  | [] => true
  | e :: rest =>
    (!(isDestructiveOrInstaller e) || !init) &&
      markerNeverPresentDuring (applyEvent init e) rest

def isRunPrune : Event → Bool
  | Event.runPrune _ => true
  | _ => false

def isRunInstall : Event → Bool
  | Event.runInstall _ => true
  | _ => false

/-! ### Retry loop characterization -/

theorem firstSuccessAux_none_iff (exit : Nat → Nat) :
    ∀ (remaining start : Nat),
      firstSuccessAux exit start remaining = none ↔
        ∀ j, start ≤ j → j < start + remaining → exit j ≠ 0 := by
  intro remaining
  induction remaining with
  | zero =>
    intro start
    simp only [firstSuccessAux]
    constructor
    · intro _ j h1 h2; omega
    · intro _; trivial
  | succ n ih =>
    intro start
    unfold firstSuccessAux
    by_cases h : exit start = 0
    · rw [if_pos h]
      constructor
      · intro hc; cases hc
      · intro hall; exact absurd h (hall start le_rfl (by omega))
    · rw [if_neg h, ih (start + 1)]
      constructor
      · intro hall j hj1 hj2
        rcases eq_or_lt_of_le hj1 with heq | hlt
        · exact heq ▸ h
        · exact hall j (by omega) (by omega)
      · intro hall j hj1 hj2
        exact hall j (by omega) (by omega)

theorem firstSuccessAux_some_iff (exit : Nat → Nat) :
    ∀ (remaining start k : Nat),
      firstSuccessAux exit start remaining = some k ↔
        (start ≤ k ∧ k < start + remaining ∧ exit k = 0 ∧
          ∀ j, start ≤ j → j < k → exit j ≠ 0) := by
  intro remaining
  induction remaining with
  | zero =>
    intro start k
    simp only [firstSuccessAux]
    constructor
    · intro hc; cases hc
    · rintro ⟨h1, h2, -⟩; omega
  | succ n ih =>
    intro start k
    unfold firstSuccessAux
    by_cases h : exit start = 0
    · rw [if_pos h]
      constructor
      · intro hc
        injection hc with hk
        subst hk
        exact ⟨le_rfl, by omega, h, fun j hj1 hj2 => absurd hj1 (by omega)⟩
      · rintro ⟨h1, h2, h3, h4⟩
        have hsk : start = k := by
          by_contra hne
          exact (h4 start le_rfl (by omega)) h
        rw [hsk]
    · rw [if_neg h, ih (start + 1) k]
      constructor
      · rintro ⟨h1, h2, h3, h4⟩
        refine ⟨by omega, by omega, h3, fun j hj1 hj2 => ?_⟩
        rcases eq_or_lt_of_le hj1 with heq | hlt
        · exact heq ▸ h
        · exact h4 j (by omega) hj2
      · rintro ⟨h1, h2, h3, h4⟩
        have hsk : start ≠ k := fun he => h (he ▸ h3)
        exact ⟨by omega, by omega, h3, fun j hj1 hj2 => h4 j (by omega) hj2⟩

theorem firstSuccessfulAttempt_none_iff (exit : Nat → Nat) (maxAttempts : Nat) :
    firstSuccessfulAttempt exit maxAttempts = none ↔
      ∀ j, 1 ≤ j → j ≤ maxAttempts → exit j ≠ 0 := by
  unfold firstSuccessfulAttempt
  rw [firstSuccessAux_none_iff]
  constructor
  · intro h j h1 h2; exact h j h1 (by omega)
  · intro h j h1 h2; exact h j h1 (by omega)

theorem firstSuccessfulAttempt_some_iff (exit : Nat → Nat) (maxAttempts k : Nat) :
    firstSuccessfulAttempt exit maxAttempts = some k ↔
      (1 ≤ k ∧ k ≤ maxAttempts ∧ exit k = 0 ∧
        ∀ j, 1 ≤ j → j < k → exit j ≠ 0) := by
  unfold firstSuccessfulAttempt
  rw [firstSuccessAux_some_iff]
  constructor
  · rintro ⟨h1, h2, h3, h4⟩; exact ⟨h1, by omega, h3, h4⟩
  · rintro ⟨h1, h2, h3, h4⟩; exact ⟨h1, by omega, h3, h4⟩

/-- The retried command finally succeeds exactly when some attempt within
the allowed budget exits 0. -/
theorem retryEvents_true_iff (mk : Nat → Event) (exit : Nat → Nat) (maxAttempts : Nat) :
    (retryEvents mk exit maxAttempts).2 = true ↔
      ∃ k, 1 ≤ k ∧ k ≤ maxAttempts ∧ exit k = 0 := by
  unfold retryEvents
  cases h : firstSuccessfulAttempt exit maxAttempts with
  | none =>
    rw [firstSuccessfulAttempt_none_iff] at h
    simp only [Bool.false_eq_true, false_iff]
    rintro ⟨k, h1, h2, h3⟩
    exact h k h1 h2 h3
  | some k =>
    rw [firstSuccessfulAttempt_some_iff] at h
    simp only [true_iff]
    exact ⟨k, h.1, h.2.1, h.2.2.1⟩

/-- Every event emitted by the retry loop is an attempt of the retried
command, with 1-based index within the attempt budget. -/
theorem retryEvents_mem (mk : Nat → Event) (exit : Nat → Nat) (maxAttempts : Nat) :
    ∀ e ∈ (retryEvents mk exit maxAttempts).1,
      ∃ a, 1 ≤ a ∧ a ≤ maxAttempts ∧ e = mk a := by
  unfold retryEvents
  cases h : firstSuccessfulAttempt exit maxAttempts with
  | none =>
    intro e he
    simp only [List.mem_map, List.mem_range] at he
    obtain ⟨i, hi, rfl⟩ := he
    exact ⟨i + 1, by omega, by omega, rfl⟩
  | some k =>
    rw [firstSuccessfulAttempt_some_iff] at h
    intro e he
    simp only [List.mem_map, List.mem_range] at he
    obtain ⟨i, hi, rfl⟩ := he
    exact ⟨i + 1, by omega, by omega, rfl⟩

/-- The first attempt is always performed. -/
theorem retryEvents_one_mem (mk : Nat → Event) (exit : Nat → Nat) (maxAttempts : Nat)
    (h : 1 ≤ maxAttempts) : mk 1 ∈ (retryEvents mk exit maxAttempts).1 := by
  unfold retryEvents
  cases hf : firstSuccessfulAttempt exit maxAttempts with
  | none => exact List.mem_map.mpr ⟨0, List.mem_range.mpr (by omega), rfl⟩
  | some k =>
    rw [firstSuccessfulAttempt_some_iff] at hf
    exact List.mem_map.mpr ⟨0, List.mem_range.mpr (by omega), rfl⟩

theorem retryEvents_ne_nil (mk : Nat → Event) (exit : Nat → Nat) (maxAttempts : Nat)
    (h : 1 ≤ maxAttempts) : (retryEvents mk exit maxAttempts).1 ≠ [] :=
  List.ne_nil_of_mem (retryEvents_one_mem mk exit maxAttempts h)

/-! ### Marker bookkeeping lemmas -/

theorem markerAfter_append (init : Bool) (a b : List Event) :
    markerAfter init (a ++ b) = markerAfter (markerAfter init a) b := by
  simp [markerAfter, List.foldl_append]

theorem mnp_append (init : Bool) (a b : List Event) :
    markerNeverPresentDuring init (a ++ b) =
      (markerNeverPresentDuring init a &&
        markerNeverPresentDuring (markerAfter init a) b) := by
  induction a generalizing init with
  | nil => simp [markerNeverPresentDuring, markerAfter]
  | cons e rest ih =>
    simp only [List.cons_append, markerNeverPresentDuring, List.append_eq]
    rw [ih]
    have hma : markerAfter init (e :: rest) = markerAfter (applyEvent init e) rest := rfl
    rw [hma, Bool.and_assoc]

theorem applyEvent_of_ne_create (e : Event) (h : e ≠ Event.createMarker) :
    applyEvent false e = false := by
  cases e <;> first | rfl | exact absurd rfl h

theorem markerAfter_false_of_no_create (evs : List Event)
    (h : ∀ e ∈ evs, e ≠ Event.createMarker) : markerAfter false evs = false := by
  induction evs with
  | nil => rfl
  | cons e rest ih =>
    simp only [markerAfter, List.foldl_cons,
      applyEvent_of_ne_create e (h e (List.mem_cons_self e rest))]
    exact ih (fun x hx => h x (List.mem_cons_of_mem e hx))

theorem mnp_false_of_no_create (evs : List Event)
    (h : ∀ e ∈ evs, e ≠ Event.createMarker) :
    markerNeverPresentDuring false evs = true := by
  induction evs with
  | nil => rfl
  | cons e rest ih =>
    simp only [markerNeverPresentDuring,
      applyEvent_of_ne_create e (h e (List.mem_cons_self e rest)),
      Bool.not_false, Bool.or_true, Bool.true_and]
    exact ih (fun x hx => h x (List.mem_cons_of_mem e hx))

/-! ### Shape of the install phase and of the needInstall phase -/

theorem installPhase_spec (env : InstallEnv) :
    (installPhase env).events ≠ [] ∧
    markerNeverPresentDuring false (installPhase env).events = true ∧
    ((installPhase env).error = none →
      (installPhase env).events.getLast? = some Event.createMarker ∧
      markerAfter false (installPhase env).events = true) ∧
    ((installPhase env).error ≠ none →
      markerAfter false (installPhase env).events = false ∧
      ∀ e ∈ (installPhase env).events, e ≠ Event.createMarker) ∧
    (∀ e ∈ (installPhase env).events.dropLast, e ≠ Event.createMarker) ∧
    (∀ e ∈ (installPhase env).events, isRunInstall e = true ∨ e = Event.createMarker) := by
  have hmax : 1 ≤ MAX_INSTALL_ATTEMPTS := by decide
  have hmem := retryEvents_mem Event.runInstall env.installExit MAX_INSTALL_ATTEMPTS
  have hnc : ∀ e ∈ (retryEvents Event.runInstall env.installExit MAX_INSTALL_ATTEMPTS).1,
      e ≠ Event.createMarker := by
    intro e he
    obtain ⟨a, -, -, rfl⟩ := hmem e he
    intro hc; cases hc
  have hri : ∀ e ∈ (retryEvents Event.runInstall env.installExit MAX_INSTALL_ATTEMPTS).1,
      isRunInstall e = true := by
    intro e he
    obtain ⟨a, -, -, rfl⟩ := hmem e he
    rfl
  have hne := retryEvents_ne_nil Event.runInstall env.installExit MAX_INSTALL_ATTEMPTS hmax
  unfold installPhase
  by_cases h : (retryEvents Event.runInstall env.installExit MAX_INSTALL_ATTEMPTS).2 = true
  · simp only [h, if_true]
    refine ⟨by simp, ?_, ?_, ?_, ?_, ?_⟩
    · rw [mnp_append, mnp_false_of_no_create _ hnc,
        markerAfter_false_of_no_create _ hnc]
      rfl
    · intro _
      refine ⟨List.getLast?_concat _, ?_⟩
      rw [markerAfter_append, markerAfter_false_of_no_create _ hnc]
      rfl
    · intro hc; exact absurd rfl hc
    · rw [List.dropLast_concat]
      exact hnc
    · intro e he
      rcases List.mem_append.mp he with h1 | h1
      · exact Or.inl (hri e h1)
      · exact Or.inr (List.mem_singleton.mp h1)
  · simp only [h, if_false]
    refine ⟨hne, mnp_false_of_no_create _ hnc, ?_, ?_, ?_, ?_⟩
    · intro hc; cases hc
    · intro _
      exact ⟨markerAfter_false_of_no_create _ hnc, hnc⟩
    · intro e he
      exact hnc e (List.dropLast_sublist _ |>.subset he)
    · intro e he
      exact Or.inl (hri e he)

/-- Packaging lemma: a run formed by a prefix (during which the marker
never shields a destructive action and after which the marker is absent)
followed by the install phase has all the marker-protocol properties. -/
theorem glue_installPhase (env : InstallEnv) (init : Bool) (pre : List Event)
    (h1 : markerNeverPresentDuring init pre = true)
    (h2 : markerAfter init pre = false)
    (h3 : ∀ e ∈ pre, e ≠ Event.createMarker) :
    (pre ++ (installPhase env).events ≠ []) ∧
    markerNeverPresentDuring init (pre ++ (installPhase env).events) = true ∧
    ((installPhase env).error = none →
      (pre ++ (installPhase env).events).getLast? = some Event.createMarker ∧
      markerAfter init (pre ++ (installPhase env).events) = true) ∧
    ((installPhase env).error ≠ none →
      markerAfter init (pre ++ (installPhase env).events) = false ∧
      ∀ e ∈ pre ++ (installPhase env).events, e ≠ Event.createMarker) ∧
    (∀ e ∈ (pre ++ (installPhase env).events).dropLast, e ≠ Event.createMarker) := by
  obtain ⟨ipne, ipmnp, ipok, iperr, ipdl, -⟩ := installPhase_spec env
  refine ⟨?_, ?_, ?_, ?_, ?_⟩
  · intro hc
    exact ipne (List.append_eq_nil.mp hc).2
  · rw [mnp_append, h1, h2, ipmnp]; rfl
  · intro he
    obtain ⟨hlast, hma⟩ := ipok he
    constructor
    · rw [List.getLast?_append, hlast]; rfl
    · rw [markerAfter_append, h2, hma]
  · intro he
    obtain ⟨hma, hnc⟩ := iperr he
    refine ⟨by rw [markerAfter_append, h2, hma], ?_⟩
    intro e hme
    rcases List.mem_append.mp hme with h | h
    · exact h3 e h
    · exact hnc e h
  · intro e hme
    rw [List.dropLast_append_of_ne_nil pre ipne] at hme
    rcases List.mem_append.mp hme with h | h
    · exact h3 e h
    · exact ipdl e h

theorem needInstallPhase_spec (env : InstallEnv)
    (markerNow nodeModulesNow skipPrune0 : Bool) :
    ((needInstallPhase env markerNow nodeModulesNow skipPrune0).events ≠ []) ∧
    markerNeverPresentDuring markerNow
      (needInstallPhase env markerNow nodeModulesNow skipPrune0).events = true ∧
    ((needInstallPhase env markerNow nodeModulesNow skipPrune0).error = none →
      (needInstallPhase env markerNow nodeModulesNow skipPrune0).events.getLast? =
        some Event.createMarker ∧
      markerAfter markerNow
        (needInstallPhase env markerNow nodeModulesNow skipPrune0).events = true) ∧
    ((needInstallPhase env markerNow nodeModulesNow skipPrune0).error ≠ none →
      markerAfter markerNow
        (needInstallPhase env markerNow nodeModulesNow skipPrune0).events = false ∧
      ∀ e ∈ (needInstallPhase env markerNow nodeModulesNow skipPrune0).events,
        e ≠ Event.createMarker) ∧
    (∀ e ∈ (needInstallPhase env markerNow nodeModulesNow skipPrune0).events.dropLast,
      e ≠ Event.createMarker) := by
  have hmax : 1 ≤ MAX_INSTALL_ATTEMPTS := by decide
  have hpnc : ∀ e ∈ (retryEvents Event.runPrune env.pruneExit MAX_INSTALL_ATTEMPTS).1,
      e ≠ Event.createMarker := by
    intro e he
    obtain ⟨a, -, -, rfl⟩ := retryEvents_mem Event.runPrune env.pruneExit MAX_INSTALL_ATTEMPTS e he
    intro hc; cases hc
  cases markerNow with
  | false =>
    have hdef : needInstallPhase env false nodeModulesNow skipPrune0 =
        { events := (if nodeModulesNow then [Event.recycleNodeModules] else []) ++
            (installPhase env).events,
          error := (installPhase env).error } := by
      unfold needInstallPhase
      simp
    rw [hdef]
    exact glue_installPhase env false _
      (by cases nodeModulesNow <;> decide)
      (by cases nodeModulesNow <;> decide)
      (by cases nodeModulesNow <;> decide)
  | true =>
    cases skipPrune0 with
    | true =>
      have hdef : needInstallPhase env true nodeModulesNow true =
          { events := [Event.deleteMarker] ++ (installPhase env).events,
            error := (installPhase env).error } := by
        unfold needInstallPhase
        simp
      rw [hdef]
      exact glue_installPhase env true _ (by decide) (by decide) (by decide)
    | false =>
      by_cases hp : (retryEvents Event.runPrune env.pruneExit MAX_INSTALL_ATTEMPTS).2 = true
      · have hdef : needInstallPhase env true nodeModulesNow false =
            { events := ([Event.deleteMarker] ++
                (retryEvents Event.runPrune env.pruneExit MAX_INSTALL_ATTEMPTS).1 ++
                [Event.deleteTempProjectDirs]) ++ (installPhase env).events,
              error := (installPhase env).error } := by
          unfold needInstallPhase
          simp [hp, List.append_assoc]
        rw [hdef]
        have hprenc : ∀ e ∈ [Event.deleteMarker] ++
            (retryEvents Event.runPrune env.pruneExit MAX_INSTALL_ATTEMPTS).1 ++
            [Event.deleteTempProjectDirs], e ≠ Event.createMarker := by
          intro e he
          rcases List.mem_append.mp he with h | h
          · rcases List.mem_append.mp h with h' | h'
            · rw [List.mem_singleton.mp h']; intro hc; cases hc
            · exact hpnc e h'
          · rw [List.mem_singleton.mp h]; intro hc; cases hc
        have htail : ∀ e ∈ (retryEvents Event.runPrune env.pruneExit MAX_INSTALL_ATTEMPTS).1 ++
            [Event.deleteTempProjectDirs], e ≠ Event.createMarker := by
          intro e he
          rcases List.mem_append.mp he with h | h
          · exact hpnc e h
          · rw [List.mem_singleton.mp h]; intro hc; cases hc
        refine glue_installPhase env true _ ?_ ?_ hprenc
        · rw [List.append_assoc, mnp_append]
          have hmnp1 : markerNeverPresentDuring true [Event.deleteMarker] = true := by decide
          have hma1 : markerAfter true [Event.deleteMarker] = false := by decide
          rw [hmnp1, hma1, mnp_false_of_no_create _ htail]
          rfl
        · rw [List.append_assoc, markerAfter_append]
          have hma1 : markerAfter true [Event.deleteMarker] = false := by decide
          rw [hma1, markerAfter_false_of_no_create _ htail]
      · have hdef : needInstallPhase env true nodeModulesNow false =
            { events := [Event.deleteMarker] ++
                (retryEvents Event.runPrune env.pruneExit MAX_INSTALL_ATTEMPTS).1,
              error := some (InstallError.installerFailure NpmCommand.prune) } := by
          unfold needInstallPhase
          simp [hp]
        rw [hdef]
        have hprenc : ∀ e ∈ [Event.deleteMarker] ++
            (retryEvents Event.runPrune env.pruneExit MAX_INSTALL_ATTEMPTS).1,
            e ≠ Event.createMarker := by
          intro e he
          rcases List.mem_append.mp he with h | h
          · rw [List.mem_singleton.mp h]; intro hc; cases hc
          · exact hpnc e h
        refine ⟨by simp, ?_, ?_, ?_, ?_⟩
        · rw [mnp_append]
          have hmnp1 : markerNeverPresentDuring true [Event.deleteMarker] = true := by decide
          have hma1 : markerAfter true [Event.deleteMarker] = false := by decide
          rw [hmnp1, hma1, mnp_false_of_no_create _ hpnc]
          rfl
        · intro hc; cases hc
        · intro _
          refine ⟨?_, hprenc⟩
          rw [markerAfter_append]
          have hma1 : markerAfter true [Event.deleteMarker] = false := by decide
          rw [hma1, markerAfter_false_of_no_create _ hpnc]
        · intro e he
          exact hprenc e (List.dropLast_sublist _ |>.subset he)

/-- Generalized packaging: any suffix trace with the marker-protocol
properties at an absent marker, prepended with a prefix that never lets
the marker shield a destructive action and ends with the marker absent,
again has the marker-protocol properties. -/
theorem glue_run (init : Bool) (pre revents : List Event) (rerror : Option InstallError)
    (h1 : markerNeverPresentDuring init pre = true)
    (h2 : markerAfter init pre = false)
    (h3 : ∀ e ∈ pre, e ≠ Event.createMarker)
    (rne : revents ≠ [])
    (rmnp : markerNeverPresentDuring false revents = true)
    (rok : rerror = none →
      revents.getLast? = some Event.createMarker ∧ markerAfter false revents = true)
    (rerr : rerror ≠ none →
      markerAfter false revents = false ∧ ∀ e ∈ revents, e ≠ Event.createMarker)
    (rdl : ∀ e ∈ revents.dropLast, e ≠ Event.createMarker) :
    (pre ++ revents ≠ []) ∧
    markerNeverPresentDuring init (pre ++ revents) = true ∧
    (rerror = none →
      (pre ++ revents).getLast? = some Event.createMarker ∧
      markerAfter init (pre ++ revents) = true) ∧
    (rerror ≠ none →
      markerAfter init (pre ++ revents) = false ∧
      ∀ e ∈ pre ++ revents, e ≠ Event.createMarker) ∧
    (∀ e ∈ (pre ++ revents).dropLast, e ≠ Event.createMarker) := by
  refine ⟨?_, ?_, ?_, ?_, ?_⟩
  · intro hc
    exact rne (List.append_eq_nil.mp hc).2
  · rw [mnp_append, h1, h2, rmnp]; rfl
  · intro he
    obtain ⟨hlast, hma⟩ := rok he
    constructor
    · rw [List.getLast?_append, hlast]; rfl
    · rw [markerAfter_append, h2, hma]
  · intro he
    obtain ⟨hma, hnc⟩ := rerr he
    refine ⟨by rw [markerAfter_append, h2, hma], ?_⟩
    intro e hme
    rcases List.mem_append.mp hme with h | h
    · exact h3 e h
    · exact hnc e h
  · intro e hme
    rw [List.dropLast_append_of_ne_nil pre rne] at hme
    rcases List.mem_append.mp hme with h | h
    · exact h3 e h
    · exact rdl e h

/-- C3: marker-file protocol.  Over any environment: (i) the marker is
never present at the moment a destructive action or installer invocation
runs; (ii) on an error-free run the marker creation, if any, is the final
action; (iii) the marker is never created before the final action; (iv)
after a fatal `InstallerFailure` (retries exhausted) no marker was
created and the marker ends absent. -/
theorem marker_file_protocol (env : InstallEnv) :
    markerNeverPresentDuring env.markerExists (installCommonModules env).events = true ∧
    ((installCommonModules env).error = none →
      (installCommonModules env).events = [] ∨
      (installCommonModules env).events.getLast? = some Event.createMarker) ∧
    (∀ e ∈ (installCommonModules env).events.dropLast, e ≠ Event.createMarker) ∧
    (∀ c, (installCommonModules env).error = some (InstallError.installerFailure c) →
      markerAfter env.markerExists (installCommonModules env).events = false ∧
      ∀ e ∈ (installCommonModules env).events, e ≠ Event.createMarker) := by
  cases ht : env.npmToolExists with
  | false =>
    have hdef : installCommonModules env =
        { events := [], error := some InstallError.npmToolMissing } := by
      unfold installCommonModules
      rw [ht]
      rfl
    rw [hdef]
    refine ⟨rfl, ?_, ?_, ?_⟩
    · intro hc; cases hc
    · intro e he; cases he
    · intro c hc
      exact absurd (Option.some.inj hc) (by intro h; cases h)
  | true =>
    by_cases hclean : (env.cleanInstall || env.cleanInstallFull) = true
    · -- clean branch
      have hev1mnp : markerNeverPresentDuring env.markerExists
          ((if env.markerExists then [Event.deleteMarker] else []) ++
            (if env.nodeModulesExists then
              [Event.deleteNodeModulesDir, Event.createNodeModulesDir] else [])) = true := by
        cases env.markerExists <;> cases env.nodeModulesExists <;> decide
      have hev1ma : markerAfter env.markerExists
          ((if env.markerExists then [Event.deleteMarker] else []) ++
            (if env.nodeModulesExists then
              [Event.deleteNodeModulesDir, Event.createNodeModulesDir] else [])) = false := by
        cases env.markerExists <;> cases env.nodeModulesExists <;> decide
      have hev1nc : ∀ e ∈ ((if env.markerExists then [Event.deleteMarker] else []) ++
            (if env.nodeModulesExists then
              [Event.deleteNodeModulesDir, Event.createNodeModulesDir] else [])),
          e ≠ Event.createMarker := by
        cases env.markerExists <;> cases env.nodeModulesExists <;> decide
      obtain ⟨pne, pmnp, pok, perr, pdl⟩ :=
        needInstallPhase_spec env false env.nodeModulesExists true
      by_cases hcache : env.cacheFolderConfigured = true
      · by_cases hexit : env.cacheCleanExit 1 = 0
        · have hdef : installCommonModules env =
              { events := ((if env.markerExists then [Event.deleteMarker] else []) ++
                  (if env.nodeModulesExists then
                    [Event.deleteNodeModulesDir, Event.createNodeModulesDir] else []) ++
                  [Event.runCacheClean]) ++
                  (needInstallPhase env false env.nodeModulesExists true).events,
                error := (needInstallPhase env false env.nodeModulesExists true).error } := by
            unfold installCommonModules
            rw [ht]
            simp [hclean, hcache, hexit, List.append_assoc]
          rw [hdef]
          have hg := glue_run env.markerExists
            (((if env.markerExists then [Event.deleteMarker] else []) ++
              (if env.nodeModulesExists then
                [Event.deleteNodeModulesDir, Event.createNodeModulesDir] else [])) ++
              [Event.runCacheClean])
            (needInstallPhase env false env.nodeModulesExists true).events
            (needInstallPhase env false env.nodeModulesExists true).error
            (by rw [mnp_append, hev1mnp, hev1ma]; rfl)
            (by rw [markerAfter_append, hev1ma]; rfl)
            (by
              intro e hme
              rcases List.mem_append.mp hme with h | h
              · exact hev1nc e h
              · rw [List.mem_singleton.mp h]; intro hc; cases hc)
            pne pmnp pok perr pdl
          exact ⟨hg.2.1, fun he => Or.inr ((hg.2.2.1 he).1), hg.2.2.2.2,
            fun c hc => (hg.2.2.2.1 (by rw [hc]; intro h; cases h))⟩
        · have hdef : installCommonModules env =
              { events := (if env.markerExists then [Event.deleteMarker] else []) ++
                  (if env.nodeModulesExists then
                    [Event.deleteNodeModulesDir, Event.createNodeModulesDir] else []) ++
                  [Event.runCacheClean],
                error := some (InstallError.commandFailed NpmCommand.cacheClean) } := by
            unfold installCommonModules
            rw [ht]
            simp [hclean, hcache, hexit, List.append_assoc]
          rw [hdef]
          refine ⟨?_, ?_, ?_, ?_⟩
          · rw [mnp_append, hev1mnp, hev1ma]; rfl
          · intro hc; cases hc
          · rw [List.dropLast_concat]
            exact hev1nc
          · intro c hc
            exact absurd (Option.some.inj hc) (by intro h; cases h)
      · have hdef : installCommonModules env =
            { events := ((if env.markerExists then [Event.deleteMarker] else []) ++
                (if env.nodeModulesExists then
                  [Event.deleteNodeModulesDir, Event.createNodeModulesDir] else [])) ++
                (needInstallPhase env false env.nodeModulesExists true).events,
              error := (needInstallPhase env false env.nodeModulesExists true).error } := by
          unfold installCommonModules
          rw [ht]
          simp [hclean, hcache, List.append_assoc]
        rw [hdef]
        have hg := glue_run env.markerExists _ _ _ hev1mnp hev1ma hev1nc
          pne pmnp pok perr pdl
        exact ⟨hg.2.1, fun he => Or.inr ((hg.2.2.1 he).1), hg.2.2.2.2,
          fun c hc => (hg.2.2.2.1 (by rw [hc]; intro h; cases h))⟩
    · by_cases hneed : needToInstall env = true
      · have hdef : installCommonModules env =
            needInstallPhase env env.markerExists env.nodeModulesExists false := by
          unfold installCommonModules
          rw [ht]
          simp [hclean, hneed]
        obtain ⟨pne, pmnp, pok, perr, pdl⟩ :=
          needInstallPhase_spec env env.markerExists env.nodeModulesExists false
        rw [hdef]
        exact ⟨pmnp, fun he => Or.inr (pok he).1, pdl,
          fun c hc => perr (by rw [hc]; intro h; cases h)⟩
      · have hdef : installCommonModules env = { events := [], error := none } := by
          unfold installCommonModules
          rw [ht]
          simp [hclean, hneed]
        rw [hdef]
        refine ⟨rfl, fun _ => Or.inl rfl, ?_, ?_⟩
        · intro e he; cases he
        · intro c hc; cases hc

theorem runInstall_one_mem_installPhase (env : InstallEnv) :
    Event.runInstall 1 ∈ (installPhase env).events := by
  have h1 := retryEvents_one_mem Event.runInstall env.installExit MAX_INSTALL_ATTEMPTS
    (by decide)
  unfold installPhase
  by_cases h : (retryEvents Event.runInstall env.installExit MAX_INSTALL_ATTEMPTS).2 = true
  · simp only [h, if_true]
    exact List.mem_append_left _ h1
  · simp only [h, if_false]
    exact h1

/-- C2: crash recovery.  With no forced clean, marker absent and
`common/node_modules` present, the run recycles that directory first,
never invokes `npm prune` nor deletes the temp project folders (pruning
is skipped), and invokes `npm install` (a full install), with no other
precondition. -/
theorem crash_recovery (env : InstallEnv)
    (htool : env.npmToolExists = true)
    (hclean : env.cleanInstall = false)
    (hfull : env.cleanInstallFull = false)
    (hmarker : env.markerExists = false)
    (hnm : env.nodeModulesExists = true) :
    (installCommonModules env).events.head? = some Event.recycleNodeModules ∧
    (∀ e ∈ (installCommonModules env).events,
      isRunPrune e = false ∧ e ≠ Event.deleteTempProjectDirs) ∧
    Event.runInstall 1 ∈ (installCommonModules env).events := by
  have hts : isFileTimestampCurrent env = false := by
    unfold isFileTimestampCurrent
    rw [hmarker]
    rfl
  have hneed : needToInstall env = true := by
    unfold needToInstall
    rw [hts, hclean, hfull]
    rfl
  have hdef : installCommonModules env =
      { events := [Event.recycleNodeModules] ++ (installPhase env).events,
        error := (installPhase env).error } := by
    unfold installCommonModules
    rw [htool, hclean, hfull]
    simp only [Bool.not_true, Bool.false_or, Bool.or_self, if_false, hneed, if_true]
    unfold needInstallPhase
    rw [hmarker, hnm]
    simp
  rw [hdef]
  obtain ⟨-, -, -, -, -, ipshape⟩ := installPhase_spec env
  refine ⟨rfl, ?_, ?_⟩
  · intro e he
    rcases List.mem_append.mp he with h | h
    · rw [List.mem_singleton.mp h]
      exact ⟨rfl, by intro hc; cases hc⟩
    · rcases ipshape e h with h' | h'
      · refine ⟨?_, ?_⟩
        · cases e <;> first | rfl | cases h'
        · intro hc
          rw [hc] at h'
          cases h'
      · rw [h']
        exact ⟨rfl, by intro hc; cases hc⟩
  · exact List.mem_append_right _ (runInstall_one_mem_installPhase env)

/-- C8: freshness check.  With no forced clean and the marker present, an
install is needed exactly when the common `package.json`, the
`node_modules` folder, or some temp module `package.json` is newer than
the marker; when none is newer, the run performs no action at all (no
installer subprocess, marker untouched). -/
theorem freshness_check (env : InstallEnv)
    (htool : env.npmToolExists = true)
    (hclean : env.cleanInstall = false)
    (hfull : env.cleanInstallFull = false)
    (hmarker : env.markerExists = true) :
    (needToInstall env = true ↔
      (env.markerMtime < env.commonPackageJsonMtime ∨
       env.markerMtime < env.nodeModulesMtime ∨
       ∃ t ∈ env.tempModulesMtimes, env.markerMtime < t)) ∧
    (needToInstall env = false →
      installCommonModules env = { events := [], error := none } ∧
      markerAfter env.markerExists (installCommonModules env).events = true) := by
  constructor
  · constructor
    · intro h
      by_contra hc
      push_neg at hc
      obtain ⟨h1, h2, h3⟩ := hc
      have hcur : isFileTimestampCurrent env = true := by
        unfold isFileTimestampCurrent
        rw [hmarker]
        simp only [List.all_eq_true, Bool.and_eq_true, decide_eq_true_eq, Bool.true_and]
        exact ⟨⟨by omega, by omega⟩, fun t ht => by have := h3 t ht; omega⟩
      unfold needToInstall at h
      rw [hclean, hfull, hcur] at h
      cases h
    · intro h
      have hcur : isFileTimestampCurrent env = false := by
        unfold isFileTimestampCurrent
        rw [hmarker]
        simp only [Bool.true_and, Bool.and_eq_false_iff]
        rcases h with h | h | ⟨t, ht, hlt⟩
        · exact Or.inl (Or.inl (by
            simp only [decide_eq_false_iff_not, Nat.not_le]
            omega))
        · exact Or.inl (Or.inr (by
            simp only [decide_eq_false_iff_not, Nat.not_le]
            omega))
        · refine Or.inr (Bool.eq_false_iff.mpr ?_)
          intro hall
          rw [List.all_eq_true] at hall
          have := hall t ht
          simp only [decide_eq_true_eq] at this
          omega
      unfold needToInstall
      rw [hclean, hfull, hcur]
      rfl
  · intro hnn
    have hdef : installCommonModules env = { events := [], error := none } := by
      unfold installCommonModules
      rw [htool, hclean, hfull]
      simp only [Bool.not_true, Bool.false_or, Bool.or_self, if_false, hnn]
      rfl
    refine ⟨hdef, ?_⟩
    rw [hdef, hmarker]
    rfl

/-- C4: retry semantics of the `npm install` invocation.  In a run that
reaches the install phase with the marker absent: if the installer exits
nonzero on attempts `1..k-1` and 0 on attempt `k ≤ 5` the run succeeds
and ends by creating the marker; if every attempt up to 5 exits nonzero
the run fails with `InstallerFailure` and no marker is created. -/
theorem install_retry_semantics (env : InstallEnv)
    (htool : env.npmToolExists = true)
    (hclean : env.cleanInstall = false)
    (hfull : env.cleanInstallFull = false)
    (hmarker : env.markerExists = false) :
    MAX_INSTALL_ATTEMPTS = 5 ∧
    (∀ k, 1 ≤ k → k ≤ MAX_INSTALL_ATTEMPTS →
      (∀ j, 1 ≤ j → j < k → env.installExit j ≠ 0) → env.installExit k = 0 →
      (installCommonModules env).error = none ∧
      (installCommonModules env).events.getLast? = some Event.createMarker) ∧
    ((∀ j, 1 ≤ j → j ≤ MAX_INSTALL_ATTEMPTS → env.installExit j ≠ 0) →
      (installCommonModules env).error =
        some (InstallError.installerFailure NpmCommand.install) ∧
      ∀ e ∈ (installCommonModules env).events, e ≠ Event.createMarker) := by
  have hts : isFileTimestampCurrent env = false := by
    unfold isFileTimestampCurrent
    rw [hmarker]
    rfl
  have hneed : needToInstall env = true := by
    unfold needToInstall
    rw [hts, hclean, hfull]
    rfl
  have hdef : installCommonModules env =
      { events := (if env.nodeModulesExists then [Event.recycleNodeModules] else []) ++
          (installPhase env).events,
        error := (installPhase env).error } := by
    unfold installCommonModules
    rw [htool, hclean, hfull]
    simp only [Bool.not_true, Bool.false_or, Bool.or_self, if_false, hneed, if_true]
    unfold needInstallPhase
    rw [hmarker]
    simp
  refine ⟨rfl, ?_, ?_⟩
  · intro k hk1 hk2 hprev hk0
    have hfs : firstSuccessfulAttempt env.installExit MAX_INSTALL_ATTEMPTS = some k :=
      (firstSuccessfulAttempt_some_iff _ _ _).mpr ⟨hk1, hk2, hk0, hprev⟩
    have hip : installPhase env =
        { events := (List.range k).map (fun i => Event.runInstall (i + 1)) ++
            [Event.createMarker],
          error := none } := by
      unfold installPhase retryEvents
      rw [hfs]
      rfl
    rw [hdef, hip]
    refine ⟨rfl, ?_⟩
    show ((if env.nodeModulesExists then [Event.recycleNodeModules] else []) ++
      ((List.range k).map (fun i => Event.runInstall (i + 1)) ++
        [Event.createMarker])).getLast? = some Event.createMarker
    rw [← List.append_assoc, List.getLast?_concat]
  · intro hall
    have hfs : firstSuccessfulAttempt env.installExit MAX_INSTALL_ATTEMPTS = none :=
      (firstSuccessfulAttempt_none_iff _ _).mpr hall
    have hip : installPhase env =
        { events := (List.range MAX_INSTALL_ATTEMPTS).map
            (fun i => Event.runInstall (i + 1)),
          error := some (InstallError.installerFailure NpmCommand.install) } := by
      unfold installPhase retryEvents
      rw [hfs]
      rfl
    rw [hdef, hip]
    refine ⟨rfl, ?_⟩
    intro e he
    rcases List.mem_append.mp he with h | h
    · cases hn : env.nodeModulesExists
      · rw [hn] at h
        simp at h
      · rw [hn] at h
        simp at h
        rw [h]
        intro hc; cases hc
    · simp only [List.mem_map, List.mem_range] at h
      obtain ⟨i, -, rfl⟩ := h
      intro hc; cases hc

/-! ## Generate-workflow installer invocations — `GenerateAction.ts`
lines 133-161 -/

/-- Observable installer invocations of the generate workflow. -/
inductive GenEvent : Type where
  | npmInstall (attempt : Nat)
  | shrinkwrap (attempt : Nat)
  deriving DecidableEq, Repr

structure GenStepResult : Type where
  events : List GenEvent
  error : Option InstallError
  deriving DecidableEq, Repr

/-- `GenerateAction._runNpmInstall` (lines 133-148): invokes `npm
install` once via `Utilities.executeCommand` — the call site passes no
attempt count, unlike `Utilities.executeCommandWithRetry` in
`InstallAction` — so a nonzero exit is immediately fatal. -/
def runNpmInstallGenerate (exit : Nat → Nat) : GenStepResult :=
  if exit 1 = 0 then { events := [GenEvent.npmInstall 1], error := none }
  else
    { events := [GenEvent.npmInstall 1]
      error := some (InstallError.commandFailed NpmCommand.install) }

/-- `GenerateAction._runNpmShrinkWrap` (lines 150-161): in lazy mode the
step is skipped entirely; otherwise `npm shrinkwrap` is invoked once via
`Utilities.executeCommand` (again with no retry). -/
def runNpmShrinkWrap (isLazy : Bool) (exit : Nat → Nat) : GenStepResult :=
  if isLazy then { events := [], error := none }
  else if exit 1 = 0 then { events := [GenEvent.shrinkwrap 1], error := none }
  else
    { events := [GenEvent.shrinkwrap 1]
      error := some (InstallError.commandFailed NpmCommand.shrinkwrap) }

/-- An environment whose `npm cache clean` fails on the first attempt but
would succeed on the second, with every other invocation succeeding. -/
def cacheRetryEnv : InstallEnv :=
  { cleanInstall := true
    cleanInstallFull := false
    npmToolExists := true
    markerExists := true
    markerMtime := 0
    nodeModulesExists := true
    commonPackageJsonMtime := 0
    nodeModulesMtime := 0
    tempModulesMtimes := []
    cacheFolderConfigured := true
    cacheCleanExit := fun n => if n = 1 then 1 else 0
    pruneExit := fun _ => 0
    installExit := fun _ => 0 }

/-- C5 is false on the code: in `cacheRetryEnv`, `npm cache clean` exits
nonzero on its first attempt and would exit 0 on a second attempt, so
under the claimed uniform retry policy the run would succeed; instead the
run fails fatally, having invoked the cache clean exactly once. -/
theorem cache_clean_not_retried_counterexample :
    cacheRetryEnv.cacheCleanExit 1 ≠ 0 ∧
    cacheRetryEnv.cacheCleanExit 2 = 0 ∧
    (installCommonModules cacheRetryEnv).error =
      some (InstallError.commandFailed NpmCommand.cacheClean) ∧
    (installCommonModules cacheRetryEnv).events.countP
      (fun e => e == Event.runCacheClean) = 1 := by decide

/-- C5 amended: only `npm prune` and the install action's `npm install`
go through the retry policy (overall success exactly when some attempt
within `MAX_INSTALL_ATTEMPTS` exits 0); the generate workflow's `npm
install` and `npm shrinkwrap` are invoked exactly once with a nonzero
exit immediately fatal, and `npm cache clean` is invoked once in the
clean branch, a nonzero exit on that single attempt failing the run
regardless of what later attempts would return. -/
theorem installer_retry_policy_scope (exit : Nat → Nat) (env : InstallEnv) :
    ((retryEvents Event.runPrune exit MAX_INSTALL_ATTEMPTS).2 = true ↔
      ∃ k, 1 ≤ k ∧ k ≤ MAX_INSTALL_ATTEMPTS ∧ exit k = 0) ∧
    ((retryEvents Event.runInstall exit MAX_INSTALL_ATTEMPTS).2 = true ↔
      ∃ k, 1 ≤ k ∧ k ≤ MAX_INSTALL_ATTEMPTS ∧ exit k = 0) ∧
    ((runNpmInstallGenerate exit).events = [GenEvent.npmInstall 1] ∧
      ((runNpmInstallGenerate exit).error = none ↔ exit 1 = 0)) ∧
    ((runNpmShrinkWrap false exit).events = [GenEvent.shrinkwrap 1] ∧
      ((runNpmShrinkWrap false exit).error = none ↔ exit 1 = 0)) ∧
    (env.npmToolExists = true → (env.cleanInstall || env.cleanInstallFull) = true →
      env.cacheFolderConfigured = true → env.cacheCleanExit 1 ≠ 0 →
      (installCommonModules env).error =
        some (InstallError.commandFailed NpmCommand.cacheClean) ∧
      (installCommonModules env).events.countP
        (fun e => e == Event.runCacheClean) = 1) := by
  refine ⟨retryEvents_true_iff _ _ _, retryEvents_true_iff _ _ _, ?_, ?_, ?_⟩
  · unfold runNpmInstallGenerate
    by_cases h : exit 1 = 0 <;> simp [h]
  · unfold runNpmShrinkWrap
    by_cases h : exit 1 = 0 <;> simp [h]
  · intro ht hcl hcfg hex
    have hdef : installCommonModules env =
        { events := (if env.markerExists then [Event.deleteMarker] else []) ++
            (if env.nodeModulesExists then
              [Event.deleteNodeModulesDir, Event.createNodeModulesDir] else []) ++
            [Event.runCacheClean],
          error := some (InstallError.commandFailed NpmCommand.cacheClean) } := by
      unfold installCommonModules
      rw [ht]
      simp [hcl, hcfg, hex]
    rw [hdef]
    refine ⟨rfl, ?_⟩
    cases env.markerExists <;> cases env.nodeModulesExists <;> decide

/-! ## Consistency checker — `InstallAction._checkThatTempModulesMatch`
(`InstallAction.ts` lines 163-226) -/

/-- `IPackageJson` of a temp module: `name`, `version`, `private`, and
the `dependencies` object, embedded as an association list in serialized
key order. -/
structure IPackageJson : Type where
  name : String
  version : String
  isPrivate : Bool
  dependencies : List (String × String)
  deriving DecidableEq, Repr

/-- The fields of `RushConfigurationProject` the checker reads. -/
structure RushConfigurationProject : Type where
  packageName : String
  tempProjectName : String
  deriving DecidableEq, Repr

/-- `ITempModuleInformation` (lines 29-33) minus the
`existsInProjectConfiguration` field, which the code initializes to false
and never reads. -/
structure ITempModuleInformation : Type where
  packageJson : IPackageJson
  filename : String
  deriving DecidableEq, Repr

/-- JavaScript object assignment `obj[k] = v` on an association list:
overwrites in place when the key exists, appends otherwise (JavaScript
string keys keep insertion order). -/
def dictInsert {α : Type} (d : List (String × α)) (k : String) (v : α) :
    List (String × α) :=
  if d.any (fun kv => kv.1 == k) then
    d.map (fun kv => if kv.1 == k then (k, v) else kv)
  else d ++ [(k, v)]

/-- Lines 165-174: read every persisted temp module file (filename and
parsed manifest) into a dictionary keyed by the manifest's `name`. -/
def buildTempModulesDict (files : List (String × IPackageJson)) :
    List (String × ITempModuleInformation) :=
  files.foldl
    (fun d f => dictInsert d f.2.name { packageJson := f.2, filename := f.1 }) []

/-- The fatal errors thrown by `_checkThatTempModulesMatch`; the data
interpolated into the thrown message (and, for the drift case, printed as
the EXPECTED/ACTUAL JSON dumps of lines 220-221) appears as constructor
fields. -/
inductive CheckError : Type where
  /-- Lines 187-191: a persisted temp module with no matching project;
  carries the offending filename. -/
  | orphanedTempModule (filename : String)
  /-- Lines 202-206: a project with no persisted temp module; carries the
  project's package name. -/
  | missingTempModule (packageName : String)
  /-- Lines 211-224: persisted and freshly generated manifests differ;
  carries the project name, the expected manifest (possibly absent from
  the generator output) and the actual persisted manifest. -/
  | drift (packageName : String) (expected : Option IPackageJson)
      (actual : IPackageJson)
  deriving DecidableEq, Repr

inductive CheckResult : Type where
  | ok
  | error (e : CheckError)
  deriving DecidableEq, Repr

/-- Modelled from the spec: §4.2 "deep structural equality", for the
external lodash `_.isEqual` on parsed JSON dependency objects: two
objects are equal when they bind the same keys to equal values,
irrespective of key order. -/
def isEqualDeps (d1 d2 : List (String × String)) : Bool :=
  d1.all (fun kv => lookupDep d2 kv.1 == some kv.2) &&
  d2.all (fun kv => lookupDep d1 kv.1 == some kv.2)

/-- Modelled from the spec: §4.2, for lodash `_.isEqual` on two parsed
temp module manifests: field-by-field equality with order-insensitive
dependency objects. -/
def isEqualPackageJson (a b : IPackageJson) : Bool :=
  a.name == b.name && a.version == b.version &&
  (a.isPrivate == b.isPrivate) && isEqualDeps a.dependencies b.dependencies

/-- `_.isEqual(expectedTempModule, tempModule.packageJson)` at line 211,
where the expected manifest may be `undefined` (lodash: `undefined` is
never equal to an object). -/
def isEqualOpt : Option IPackageJson → IPackageJson → Bool
  | none, _ => false
  | some a, b => isEqualPackageJson a b

/-- Second phase (lines 197-225): for each project in order, require a
persisted temp module under its `tempProjectName` (else the missing
error) and manifest equality against the freshly generated expected
manifest looked up by `packageName` (else the drift error). -/
def checkProjects (dict : List (String × ITempModuleInformation))
    (expected : List (String × IPackageJson)) :
    List RushConfigurationProject → CheckResult
  | [] => CheckResult.ok
  | p :: rest =>
    match lookupDep dict p.tempProjectName with
    | none => CheckResult.error (CheckError.missingTempModule p.packageName)
    | some info =>
      if isEqualOpt (lookupDep expected p.packageName) info.packageJson then
        checkProjects dict expected rest
      else
        CheckResult.error (CheckError.drift p.packageName
          (lookupDep expected p.packageName) info.packageJson)

/-- `InstallAction._checkThatTempModulesMatch` (lines 163-226): build the
dictionary of persisted temp modules, require a matching project for
every entry (else the orphan error for the first offender in dictionary
order, which aborts before the second phase), then run the per-project
phase against the freshly generated `expected` map (keyed by package
name). -/
def checkThatTempModulesMatch (files : List (String × IPackageJson))
    (projects : List RushConfigurationProject)
    (expected : List (String × IPackageJson)) : CheckResult :=
  let dict := buildTempModulesDict files
  match dict.find?
      (fun kv => !(projects.any (fun p => p.tempProjectName == kv.1))) with
  | some kv => CheckResult.error (CheckError.orphanedTempModule kv.2.filename)
  | none => checkProjects dict expected projects

/-! ### Association-list and dictionary lemmas -/

theorem lookupDep_eq_none_iff {α : Type} (d : List (String × α)) (k : String) :
    lookupDep d k = none ↔ ∀ kv ∈ d, kv.1 ≠ k := by
  unfold lookupDep
  cases hf : d.find? (fun kv => kv.1 == k) with
  | none =>
    rw [List.find?_eq_none] at hf
    simp only [Option.map_none', true_iff]
    intro kv hkv
    have := hf kv hkv
    simpa using this
  | some kv =>
    simp only [Option.map_some']
    constructor
    · intro hc; cases hc
    · intro hall
      have h1 := List.find?_some hf
      have h2 := List.mem_of_find?_eq_some hf
      exact absurd (by simpa using h1) (hall kv h2)

theorem lookupDep_some_mem {α : Type} {d : List (String × α)} {k : String} {v : α}
    (h : lookupDep d k = some v) : (k, v) ∈ d := by
  unfold lookupDep at h
  cases hf : d.find? (fun kv => kv.1 == k) with
  | none => rw [hf] at h; cases h
  | some kv =>
    obtain ⟨k', v'⟩ := kv
    rw [hf] at h
    simp only [Option.map_some'] at h
    have h1 : k' = k := by simpa using List.find?_some hf
    have h2 := List.mem_of_find?_eq_some hf
    rw [← h1, ← Option.some.inj h]
    exact h2

theorem lookupDep_of_mem {α : Type} {d : List (String × α)}
    (hnodup : (d.map Prod.fst).Nodup) {k : String} {v : α}
    (h : (k, v) ∈ d) : lookupDep d k = some v := by
  induction d with
  | nil => cases h
  | cons kv rest ih =>
    rcases List.mem_cons.mp h with heq | hmem
    · unfold lookupDep
      rw [← heq]
      simp
    · have hk : kv.1 ≠ k := by
        have h1 : k ∈ rest.map Prod.fst := List.mem_map.mpr ⟨(k, v), hmem, rfl⟩
        have h2 := (List.nodup_cons.mp hnodup).1
        intro he; exact h2 (he ▸ h1)
      unfold lookupDep
      rw [List.find?_cons_of_neg _ (by simpa using hk)]
      exact ih (List.nodup_cons.mp hnodup).2 hmem

theorem buildDict_foldl_eq :
    ∀ (files : List (String × IPackageJson))
      (acc : List (String × ITempModuleInformation)),
      (∀ f ∈ files, (acc.any (fun kv => kv.1 == f.2.name)) = false) →
      ((files.map (fun f => f.2.name)).Nodup) →
      files.foldl (fun d f => dictInsert d f.2.name
          { packageJson := f.2, filename := f.1 }) acc =
        acc ++ files.map (fun f => (f.2.name,
          ({ packageJson := f.2, filename := f.1 } : ITempModuleInformation))) := by
  intro files
  induction files with
  | nil => intro acc _ _; simp
  | cons f rest ih =>
    intro acc hacc hnodup
    simp only [List.foldl_cons, List.map_cons]
    have hins : dictInsert acc f.2.name
        ({ packageJson := f.2, filename := f.1 } : ITempModuleInformation) =
        acc ++ [(f.2.name, { packageJson := f.2, filename := f.1 })] := by
      unfold dictInsert
      rw [hacc f (List.mem_cons_self f rest)]
      simp
    have h1 : ∀ g ∈ rest,
        ((acc ++ [(f.2.name,
          ({ packageJson := f.2, filename := f.1 } : ITempModuleInformation))]).any
          (fun kv => kv.1 == g.2.name)) = false := by
      intro g hg
      rw [List.any_append, hacc g (List.mem_cons_of_mem f hg)]
      simp only [Bool.false_or, List.any_cons, List.any_nil, Bool.or_false]
      have hne : f.2.name ≠ g.2.name := by
        have hmem : g.2.name ∈ rest.map (fun f => f.2.name) :=
          List.mem_map.mpr ⟨g, hg, rfl⟩
        have hh := (List.nodup_cons.mp hnodup).1
        intro he
        exact hh (show f.2.name ∈ List.map (fun f => f.2.name) rest by
          rw [he]; exact hmem)
      simpa using hne
    rw [hins, ih _ h1 (List.nodup_cons.mp hnodup).2]
    simp

theorem buildTempModulesDict_eq (files : List (String × IPackageJson))
    (hfn : (files.map (fun f => f.2.name)).Nodup) :
    buildTempModulesDict files =
      files.map (fun f => (f.2.name,
        ({ packageJson := f.2, filename := f.1 } : ITempModuleInformation))) := by
  unfold buildTempModulesDict
  rw [buildDict_foldl_eq files [] (fun f _ => rfl) hfn]
  rfl

/-! ### Phase-two lemmas -/

theorem checkProjects_ok_iff (dict : List (String × ITempModuleInformation))
    (expected : List (String × IPackageJson))
    (projects : List RushConfigurationProject) :
    checkProjects dict expected projects = CheckResult.ok ↔
      ∀ p ∈ projects, ∃ info, lookupDep dict p.tempProjectName = some info ∧
        isEqualOpt (lookupDep expected p.packageName) info.packageJson = true := by
  induction projects with
  | nil => simp [checkProjects]
  | cons p rest ih =>
    cases hl : lookupDep dict p.tempProjectName with
    | none =>
      simp only [checkProjects, hl]
      constructor
      · intro hc; cases hc
      · intro hall
        obtain ⟨info, hinfo, -⟩ := hall p (List.mem_cons_self p rest)
        rw [hl] at hinfo; cases hinfo
    | some info =>
      simp only [checkProjects, hl]
      by_cases he : isEqualOpt (lookupDep expected p.packageName) info.packageJson = true
      · rw [if_pos he, ih]
        constructor
        · intro hall q hq
          rcases List.mem_cons.mp hq with rfl | hq'
          · exact ⟨info, hl, he⟩
          · exact hall q hq'
        · intro hall q hq
          exact hall q (List.mem_cons_of_mem p hq)
      · rw [if_neg he]
        constructor
        · intro hc; cases hc
        · intro hall
          obtain ⟨info', hinfo', he'⟩ := hall p (List.mem_cons_self p rest)
          rw [hl] at hinfo'
          rw [← Option.some.inj hinfo'] at he'
          exact absurd he' he

theorem checkProjects_missing (dict : List (String × ITempModuleInformation))
    (expected : List (String × IPackageJson)) :
    ∀ (projects : List RushConfigurationProject) (nm : String),
      checkProjects dict expected projects =
        CheckResult.error (CheckError.missingTempModule nm) →
      ∃ p ∈ projects, p.packageName = nm ∧
        lookupDep dict p.tempProjectName = none := by
  intro projects
  induction projects with
  | nil =>
    intro nm hc
    simp [checkProjects] at hc
  | cons p rest ih =>
    intro nm hc
    cases hl : lookupDep dict p.tempProjectName with
    | none =>
      simp only [checkProjects, hl] at hc
      have : p.packageName = nm := by
        injection hc with h
        injection h with h1
      exact ⟨p, List.mem_cons_self p rest, this, hl⟩
    | some info =>
      simp only [checkProjects, hl] at hc
      by_cases he : isEqualOpt (lookupDep expected p.packageName) info.packageJson = true
      · rw [if_pos he] at hc
        obtain ⟨q, hq, hq1, hq2⟩ := ih nm hc
        exact ⟨q, List.mem_cons_of_mem p hq, hq1, hq2⟩
      · rw [if_neg he] at hc
        exfalso
        injection hc with h
        cases h

theorem checkProjects_append_pass (dict : List (String × ITempModuleInformation))
    (expected : List (String × IPackageJson))
    (pre rest : List RushConfigurationProject)
    (hpre : ∀ q ∈ pre, ∃ i, lookupDep dict q.tempProjectName = some i ∧
      isEqualOpt (lookupDep expected q.packageName) i.packageJson = true) :
    checkProjects dict expected (pre ++ rest) = checkProjects dict expected rest := by
  induction pre with
  | nil => rfl
  | cons q pre' ih =>
    obtain ⟨i, hi, he⟩ := hpre q (List.mem_cons_self q pre')
    show checkProjects dict expected (q :: (pre' ++ rest)) = _
    simp only [checkProjects, hi]
    rw [if_pos he]
    exact ih (fun r hr => hpre r (List.mem_cons_of_mem q hr))

theorem checkThatTempModulesMatch_eq (files : List (String × IPackageJson))
    (projects : List RushConfigurationProject)
    (expected : List (String × IPackageJson)) :
    checkThatTempModulesMatch files projects expected =
      match (buildTempModulesDict files).find?
          (fun kv => !(projects.any (fun p => p.tempProjectName == kv.1))) with
      | some kv => CheckResult.error (CheckError.orphanedTempModule kv.2.filename)
      | none => checkProjects (buildTempModulesDict files) expected projects := rfl

/-- C6: consistency invariant I3.  With distinct temp project names and
distinct persisted manifest names: a successful check certifies that
every persisted temp module has exactly one matching project and every
project exactly one persisted temp module; a persisted module without a
matching project always aborts the check with the orphan error naming
such a module's file; a project without a persisted module always makes
the check fail (never auto-healed); and a missing-temp-module error
always names a project that indeed has no persisted module. -/
theorem consistency_invariant (files : List (String × IPackageJson))
    (projects : List RushConfigurationProject)
    (expected : List (String × IPackageJson))
    (hfn : (files.map (fun f => f.2.name)).Nodup)
    (hpn : (projects.map (fun p => p.tempProjectName)).Nodup) :
    (checkThatTempModulesMatch files projects expected = CheckResult.ok →
      (∀ f ∈ files, ∃! p, p ∈ projects ∧ p.tempProjectName = f.2.name) ∧
      (∀ p ∈ projects, ∃! f, f ∈ files ∧ f.2.name = p.tempProjectName)) ∧
    ((∃ f ∈ files, ∀ p ∈ projects, p.tempProjectName ≠ f.2.name) →
      ∃ f ∈ files, (∀ p ∈ projects, p.tempProjectName ≠ f.2.name) ∧
        checkThatTempModulesMatch files projects expected =
          CheckResult.error (CheckError.orphanedTempModule f.1)) ∧
    ((∃ p ∈ projects, ∀ f ∈ files, f.2.name ≠ p.tempProjectName) →
      checkThatTempModulesMatch files projects expected ≠ CheckResult.ok) ∧
    (∀ nm, checkThatTempModulesMatch files projects expected =
        CheckResult.error (CheckError.missingTempModule nm) →
      ∃ p ∈ projects, p.packageName = nm ∧
        ∀ f ∈ files, f.2.name ≠ p.tempProjectName) ∧
    (∀ (pre post : List RushConfigurationProject) (p : RushConfigurationProject),
      projects = pre ++ p :: post →
      (∀ f ∈ files, ∃ q ∈ projects, q.tempProjectName = f.2.name) →
      (∀ q ∈ pre, ∃ i,
        lookupDep (buildTempModulesDict files) q.tempProjectName = some i ∧
        isEqualOpt (lookupDep expected q.packageName) i.packageJson = true) →
      (∀ f ∈ files, f.2.name ≠ p.tempProjectName) →
      checkThatTempModulesMatch files projects expected =
        CheckResult.error (CheckError.missingTempModule p.packageName)) := by
  have hdict := buildTempModulesDict_eq files hfn
  refine ⟨?_, ?_, ?_, ?_, ?_⟩
  · intro hok
    cases hfind : (buildTempModulesDict files).find?
        (fun kv => !(projects.any (fun p => p.tempProjectName == kv.1))) with
    | some kv =>
      rw [checkThatTempModulesMatch_eq, hfind] at hok
      cases hok
    | none =>
      rw [checkThatTempModulesMatch_eq, hfind] at hok
      have hokp := (checkProjects_ok_iff _ _ _).mp hok
      have hnone := List.find?_eq_none.mp hfind
      constructor
      · intro f hf
        have hmem : (f.2.name,
            ({ packageJson := f.2, filename := f.1 } : ITempModuleInformation)) ∈
            buildTempModulesDict files := by
          rw [hdict]
          exact List.mem_map_of_mem _ hf
        have hpred := hnone _ hmem
        simp only [Bool.not_eq_true', Bool.not_eq_false] at hpred
        obtain ⟨p, hp, hpe⟩ := List.any_eq_true.mp hpred
        have hpe' : p.tempProjectName = f.2.name := by simpa using hpe
        refine ⟨p, ⟨hp, hpe'⟩, ?_⟩
        rintro q ⟨hq, hqe⟩
        exact List.inj_on_of_nodup_map hpn hq hp (hqe.trans hpe'.symm)
      · intro p hp
        obtain ⟨info, hinfo, -⟩ := hokp p hp
        have hmem := lookupDep_some_mem hinfo
        rw [hdict] at hmem
        obtain ⟨f, hf, hge⟩ := List.mem_map.mp hmem
        have hname : f.2.name = p.tempProjectName := congrArg Prod.fst hge
        refine ⟨f, ⟨hf, hname⟩, ?_⟩
        rintro g ⟨hg, hge'⟩
        exact List.inj_on_of_nodup_map hfn hg hf (hge'.trans hname.symm)
  · rintro ⟨f, hf, hforall⟩
    cases hfind : (buildTempModulesDict files).find?
        (fun kv => !(projects.any (fun p => p.tempProjectName == kv.1))) with
    | none =>
      exfalso
      have hnone := List.find?_eq_none.mp hfind
      have hmem : (f.2.name,
          ({ packageJson := f.2, filename := f.1 } : ITempModuleInformation)) ∈
          buildTempModulesDict files := by
        rw [hdict]
        exact List.mem_map_of_mem _ hf
      have hpred := hnone _ hmem
      simp only [Bool.not_eq_true', Bool.not_eq_false] at hpred
      obtain ⟨p, hp, hpe⟩ := List.any_eq_true.mp hpred
      exact hforall p hp (by simpa using hpe)
    | some kv =>
      have hkvmem := List.mem_of_find?_eq_some hfind
      have hkvpred := List.find?_some hfind
      rw [hdict] at hkvmem
      obtain ⟨f', hf', hge⟩ := List.mem_map.mp hkvmem
      refine ⟨f', hf', ?_, ?_⟩
      · intro p hp he
        rw [← hge] at hkvpred
        simp only [Bool.not_eq_true'] at hkvpred
        have hc : projects.any
            (fun q => q.tempProjectName == f'.2.name) = true :=
          List.any_eq_true.mpr ⟨p, hp, by simpa using he⟩
        rw [hkvpred] at hc
        cases hc
      · rw [checkThatTempModulesMatch_eq, hfind, ← hge]
  · rintro ⟨p, hp, hforall⟩ hok
    cases hfind : (buildTempModulesDict files).find?
        (fun kv => !(projects.any (fun q => q.tempProjectName == kv.1))) with
    | some kv =>
      rw [checkThatTempModulesMatch_eq, hfind] at hok
      cases hok
    | none =>
      rw [checkThatTempModulesMatch_eq, hfind] at hok
      obtain ⟨info, hinfo, -⟩ := (checkProjects_ok_iff _ _ _).mp hok p hp
      have hmem := lookupDep_some_mem hinfo
      rw [hdict] at hmem
      obtain ⟨f, hf, hge⟩ := List.mem_map.mp hmem
      exact hforall f hf (congrArg Prod.fst hge)
  · intro nm hres
    cases hfind : (buildTempModulesDict files).find?
        (fun kv => !(projects.any (fun q => q.tempProjectName == kv.1))) with
    | some kv =>
      rw [checkThatTempModulesMatch_eq, hfind] at hres
      exfalso
      injection hres with h
      cases h
    | none =>
      rw [checkThatTempModulesMatch_eq, hfind] at hres
      obtain ⟨p, hp, hpname, hnone'⟩ := checkProjects_missing _ _ projects nm hres
      refine ⟨p, hp, hpname, ?_⟩
      intro f hf he
      rw [lookupDep_eq_none_iff] at hnone'
      have hmem : (f.2.name,
          ({ packageJson := f.2, filename := f.1 } : ITempModuleInformation)) ∈
          buildTempModulesDict files := by
        rw [hdict]
        exact List.mem_map_of_mem _ hf
      exact hnone' _ hmem he
  · intro pre post p hsplit hnoorphan hpre hnof
    have hfind : (buildTempModulesDict files).find?
        (fun kv => !(projects.any (fun q => q.tempProjectName == kv.1))) = none := by
      rw [List.find?_eq_none]
      intro kv hkv
      rw [hdict] at hkv
      obtain ⟨f, hf, hge⟩ := List.mem_map.mp hkv
      obtain ⟨q, hq, hqe⟩ := hnoorphan f hf
      intro hc
      simp only [Bool.not_eq_true'] at hc
      have h1 : f.2.name = kv.1 := congrArg Prod.fst hge
      have h2 : projects.any (fun r => r.tempProjectName == kv.1) = true :=
        List.any_eq_true.mpr ⟨q, hq, by
          rw [show q.tempProjectName = kv.1 from hqe.trans h1]
          simp⟩
      rw [hc] at h2
      cases h2
    have hlnone : lookupDep (buildTempModulesDict files) p.tempProjectName = none := by
      rw [lookupDep_eq_none_iff]
      intro kv hkv
      rw [hdict] at hkv
      obtain ⟨f, hf, hge⟩ := List.mem_map.mp hkv
      rw [← congrArg Prod.fst hge]
      exact hnof f hf
    have hstep : checkThatTempModulesMatch files projects expected =
        checkProjects (buildTempModulesDict files) expected projects := by
      rw [checkThatTempModulesMatch_eq, hfind]
    rw [hstep, hsplit, checkProjects_append_pass _ _ pre (p :: post) hpre]
    simp only [checkProjects, hlnone]

/-- C7: drift detection.  If no persisted temp module is orphaned, every
project before `p` passes its checks, and `p`'s persisted manifest is
found but not deep-structurally equal to the freshly generated expected
manifest, the check aborts with a drift error naming exactly `p` and
carrying both the expected and the actual manifest. -/
theorem drift_detection (files : List (String × IPackageJson))
    (projects pre post : List RushConfigurationProject)
    (p : RushConfigurationProject)
    (expected : List (String × IPackageJson))
    (info : ITempModuleInformation)
    (hfn : (files.map (fun f => f.2.name)).Nodup)
    (hnoorphan : ∀ f ∈ files, ∃ q ∈ projects, q.tempProjectName = f.2.name)
    (hsplit : projects = pre ++ p :: post)
    (hpre : ∀ q ∈ pre, ∃ i,
      lookupDep (buildTempModulesDict files) q.tempProjectName = some i ∧
      isEqualOpt (lookupDep expected q.packageName) i.packageJson = true)
    (hinfo : lookupDep (buildTempModulesDict files) p.tempProjectName = some info)
    (hdrift : isEqualOpt (lookupDep expected p.packageName) info.packageJson = false) :
    checkThatTempModulesMatch files projects expected =
      CheckResult.error (CheckError.drift p.packageName
        (lookupDep expected p.packageName) info.packageJson) := by
  have hdict := buildTempModulesDict_eq files hfn
  have hfind : (buildTempModulesDict files).find?
      (fun kv => !(projects.any (fun q => q.tempProjectName == kv.1))) = none := by
    rw [List.find?_eq_none]
    intro kv hkv
    rw [hdict] at hkv
    obtain ⟨f, hf, hge⟩ := List.mem_map.mp hkv
    obtain ⟨q, hq, hqe⟩ := hnoorphan f hf
    intro hc
    simp only [Bool.not_eq_true'] at hc
    have h1 : f.2.name = kv.1 := congrArg Prod.fst hge
    have h2 : projects.any (fun r => r.tempProjectName == kv.1) = true :=
      List.any_eq_true.mpr ⟨q, hq, by
        rw [show q.tempProjectName = kv.1 from hqe.trans h1]
        simp⟩
    rw [hc] at h2
    cases h2
  have hstep : checkThatTempModulesMatch files projects expected =
      checkProjects (buildTempModulesDict files) expected projects := by
    rw [checkThatTempModulesMatch_eq, hfind]
  rw [hstep, hsplit, checkProjects_append_pass _ _ pre (p :: post) hpre]
  simp only [checkProjects, hinfo]
  rw [if_neg (by simp [hdrift])]

/-- C10: the drift comparison is key-order-insensitive.  Two manifests
with equal scalar fields whose dependency objects are permutations of one
another (with duplicate-free keys) are accepted as equal by the modelled
lodash comparison, and the consistency check passes on them — stable key
ordering of the serialized files is not required for the drift check. -/
theorem drift_check_key_order_insensitive (a b : IPackageJson)
    (hname : a.name = b.name) (hver : a.version = b.version)
    (hpriv : a.isPrivate = b.isPrivate)
    (hperm : a.dependencies.Perm b.dependencies)
    (hnodup : (a.dependencies.map Prod.fst).Nodup) :
    isEqualPackageJson a b = true ∧
    isEqualOpt (some a) b = true ∧
    (∀ (fn : String) (pr : RushConfigurationProject),
      pr.tempProjectName = b.name →
      checkThatTempModulesMatch [(fn, b)] [pr] [(pr.packageName, a)] =
        CheckResult.ok) := by
  have hnodup2 : (b.dependencies.map Prod.fst).Nodup :=
    ((hperm.map Prod.fst).nodup_iff).mp hnodup
  have hdeps : isEqualDeps a.dependencies b.dependencies = true := by
    unfold isEqualDeps
    rw [Bool.and_eq_true, List.all_eq_true, List.all_eq_true]
    constructor
    · intro kv hkv
      obtain ⟨k, v⟩ := kv
      simp [lookupDep_of_mem hnodup2 (hperm.subset hkv)]
    · intro kv hkv
      obtain ⟨k, v⟩ := kv
      simp [lookupDep_of_mem hnodup (hperm.symm.subset hkv)]
  have hpkg : isEqualPackageJson a b = true := by
    unfold isEqualPackageJson
    rw [hname, hver, hpriv, hdeps]
    simp
  refine ⟨hpkg, hpkg, ?_⟩
  intro fn pr hpr
  have hd : buildTempModulesDict [(fn, b)] =
      [(b.name, ({ packageJson := b, filename := fn } : ITempModuleInformation))] := rfl
  have hfind : (buildTempModulesDict [(fn, b)]).find?
      (fun kv => !([pr].any (fun q => q.tempProjectName == kv.1))) = none := by
    rw [hd, List.find?_eq_none]
    intro kv hkv
    rw [List.mem_singleton.mp hkv]
    simp [hpr]
  rw [checkThatTempModulesMatch_eq, hfind, hd]
  have hl : lookupDep
      [(b.name, ({ packageJson := b, filename := fn } : ITempModuleInformation))]
      pr.tempProjectName =
      some { packageJson := b, filename := fn } := by
    rw [hpr]
    simp [lookupDep]
  have hl2 : lookupDep [(pr.packageName, a)] pr.packageName = some a := by
    simp [lookupDep]
  simp only [checkProjects, hl, hl2]
  rw [if_pos (show isEqualOpt (some a) b = true from hpkg)]

/-! ## Concrete instances for the witness theorems -/

/-- A toy range-satisfaction oracle: a version satisfies a range exactly
when the two strings coincide. -/
def satEq : String → String → Bool := fun v r => v == r

def demoShrinkwrap : IShrinkwrapFile :=
  { name := "rush-common"
    version := "0.0.0"
    dependencies :=
      [("rush-proj-a", IShrinkwrapDependency.mk "0.0.0" "" ""
          (some [("left-pad", IShrinkwrapDependency.mk "1.1.0" "" "" none)])),
       ("left-pad", IShrinkwrapDependency.mk "1.2.0" "" "" none)] }

def demoTempModules : List TempModuleEntry :=
  [{ packageName := "proj-a"
     tempProjectName := "rush-proj-a"
     dependencies := [("left-pad", "1.1.0")] }]

def crashEnv : InstallEnv :=
  { cleanInstall := false
    cleanInstallFull := false
    npmToolExists := true
    markerExists := false
    markerMtime := 0
    nodeModulesExists := true
    commonPackageJsonMtime := 0
    nodeModulesMtime := 0
    tempModulesMtimes := []
    cacheFolderConfigured := false
    cacheCleanExit := fun _ => 0
    pruneExit := fun _ => 0
    installExit := fun _ => 0 }

/-- Install fails on attempts 1 and 2 and succeeds on attempt 3. -/
def retryEnv : InstallEnv :=
  { crashEnv with installExit := fun n => if n < 3 then 1 else 0 }

/-- Install fails on every attempt. -/
def retryFailEnv : InstallEnv :=
  { crashEnv with installExit := fun _ => 1 }

/-- Marker present and newer than everything it is compared against. -/
def freshEnv : InstallEnv :=
  { crashEnv with
    markerExists := true
    markerMtime := 10
    commonPackageJsonMtime := 5
    nodeModulesMtime := 5
    tempModulesMtimes := [3, 7] }

def demoProject : RushConfigurationProject :=
  { packageName := "proj-a", tempProjectName := "rush-proj-a" }

def demoManifest : IPackageJson :=
  { name := "rush-proj-a"
    version := "0.0.0"
    isPrivate := true
    dependencies := [("left-pad", "1.1.0")] }

/-- Same manifest with a changed dependency version. -/
def driftedManifest : IPackageJson :=
  { demoManifest with dependencies := [("left-pad", "1.2.0")] }

def demoFiles : List (String × IPackageJson) :=
  [("temp_modules/rush-proj-a/package.json", demoManifest)]

def driftedFiles : List (String × IPackageJson) :=
  [("temp_modules/rush-proj-a/package.json", driftedManifest)]

def demoProjects : List RushConfigurationProject := [demoProject]

def demoExpected : List (String × IPackageJson) := [("proj-a", demoManifest)]

def orderedManifest : IPackageJson :=
  { name := "rush-proj-a"
    version := "0.0.0"
    isPrivate := true
    dependencies := [("alpha", "1.0.0"), ("beta", "2.0.0")] }

/-- The same manifest with its dependency keys serialized in the other
order. -/
def reorderedManifest : IPackageJson :=
  { orderedManifest with dependencies := [("beta", "2.0.0"), ("alpha", "1.0.0")] }

/-! ## Witness theorems -/

/-- C1 witness: the decision equivalence evaluated at a concrete
shrinkwrap and temp module set. -/
theorem satisfaction_analysis_witness :
    (generateInstallDecision satEq (some demoShrinkwrap) demoTempModules =
        InstallDecision.FullReinstall ↔
      ∃ tm ∈ demoTempModules, ∃ dv ∈ tm.dependencies,
        specTripleUnsatisfied satEq demoShrinkwrap tm.tempProjectName dv.1 dv.2) :=
  (satisfaction_analysis_matches_spec satEq demoShrinkwrap demoTempModules).2.1

/-- C2 witness: crash recovery evaluated at a concrete environment. -/
theorem crash_recovery_witness :
    crashEnv.npmToolExists = true ∧ crashEnv.cleanInstall = false ∧
    crashEnv.cleanInstallFull = false ∧ crashEnv.markerExists = false ∧
    crashEnv.nodeModulesExists = true ∧
    ((installCommonModules crashEnv).events.head? = some Event.recycleNodeModules ∧
      (∀ e ∈ (installCommonModules crashEnv).events,
        isRunPrune e = false ∧ e ≠ Event.deleteTempProjectDirs) ∧
      Event.runInstall 1 ∈ (installCommonModules crashEnv).events) :=
  ⟨rfl, rfl, rfl, rfl, rfl, crash_recovery crashEnv rfl rfl rfl rfl rfl⟩

/-- C3 witness: the marker protocol evaluated at a concrete
environment. -/
theorem marker_file_protocol_witness :
    markerNeverPresentDuring crashEnv.markerExists
      (installCommonModules crashEnv).events = true :=
  (marker_file_protocol crashEnv).1

/-- C4 witness: failure on attempts 1 and 2 then success on attempt 3
creates the marker; failure on all five attempts is fatal with no marker
created. -/
theorem install_retry_semantics_witness :
    (retryEnv.installExit 1 ≠ 0 ∧ retryEnv.installExit 2 ≠ 0 ∧
      retryEnv.installExit 3 = 0 ∧
      (installCommonModules retryEnv).error = none ∧
      (installCommonModules retryEnv).events.getLast? = some Event.createMarker) ∧
    ((installCommonModules retryFailEnv).error =
        some (InstallError.installerFailure NpmCommand.install) ∧
      ∀ e ∈ (installCommonModules retryFailEnv).events, e ≠ Event.createMarker) := by
  constructor
  · refine ⟨by decide, by decide, by decide, ?_⟩
    exact (install_retry_semantics retryEnv rfl rfl rfl rfl).2.1 3 (by decide) (by decide)
      (fun j h1 h2 => by interval_cases j <;> decide) (by decide)
  · exact (install_retry_semantics retryFailEnv rfl rfl rfl rfl).2.2
      (fun j h1 h2 => Nat.one_ne_zero)

/-- C5 witness (for the amended claim): the single cache-clean invocation
fails the concrete run immediately. -/
theorem installer_retry_policy_scope_witness :
    (installCommonModules cacheRetryEnv).error =
        some (InstallError.commandFailed NpmCommand.cacheClean) ∧
    (installCommonModules cacheRetryEnv).events.countP
        (fun e => e == Event.runCacheClean) = 1 :=
  (installer_retry_policy_scope (fun _ => 0) cacheRetryEnv).2.2.2.2
    rfl rfl rfl (by decide)

/-- C6 witness: a consistent concrete configuration passes the check and
enjoys the bidirectional exactly-one correspondence. -/
theorem consistency_invariant_witness :
    checkThatTempModulesMatch demoFiles demoProjects demoExpected =
      CheckResult.ok ∧
    ((checkThatTempModulesMatch demoFiles demoProjects demoExpected =
        CheckResult.ok →
      (∀ f ∈ demoFiles, ∃! p, p ∈ demoProjects ∧ p.tempProjectName = f.2.name) ∧
      (∀ p ∈ demoProjects, ∃! f, f ∈ demoFiles ∧ f.2.name = p.tempProjectName))) :=
  ⟨by decide,
    (consistency_invariant demoFiles demoProjects demoExpected
      (by decide) (by decide)).1⟩

/-- C7 witness: mutating one dependency version in the persisted temp
module raises the drift error naming that project and carrying both
manifests. -/
theorem drift_detection_witness :
    checkThatTempModulesMatch driftedFiles demoProjects demoExpected =
      CheckResult.error (CheckError.drift demoProject.packageName
        (lookupDep demoExpected demoProject.packageName) driftedManifest) :=
  drift_detection driftedFiles demoProjects [] [] demoProject demoExpected
    { packageJson := driftedManifest
      filename := "temp_modules/rush-proj-a/package.json" }
    (by decide) (by decide) rfl
    (fun q hq => absurd hq (List.not_mem_nil q))
    (by decide) (by decide)

/-- C8 witness: with the marker newer than every compared file, no
install is needed and the run does nothing. -/
theorem freshness_check_witness :
    needToInstall freshEnv = false ∧
    (installCommonModules freshEnv = { events := [], error := none } ∧
      markerAfter freshEnv.markerExists (installCommonModules freshEnv).events =
        true) :=
  ⟨by decide, (freshness_check freshEnv rfl rfl rfl rfl).2 (by decide)⟩

/-- C9 witness: the absent-lock-file case evaluated at concrete
arguments. -/
theorem absent_shrinkwrap_full_reinstall_witness :
    shouldDeleteNodeModules satEq none demoTempModules = true ∧
    generateInstallDecision satEq none demoTempModules =
      InstallDecision.FullReinstall :=
  absent_shrinkwrap_full_reinstall satEq demoTempModules

/-- C10 witness: two concrete manifests whose dependency keys are
serialized in different orders are accepted as equal, and the check
passes on them. -/
theorem drift_check_key_order_insensitive_witness :
    isEqualPackageJson orderedManifest reorderedManifest = true ∧
    isEqualOpt (some orderedManifest) reorderedManifest = true ∧
    checkThatTempModulesMatch [("f.json", reorderedManifest)] [demoProject]
      [(demoProject.packageName, orderedManifest)] = CheckResult.ok :=
  ⟨(drift_check_key_order_insensitive orderedManifest reorderedManifest
      rfl rfl rfl (by decide) (by decide)).1,
   (drift_check_key_order_insensitive orderedManifest reorderedManifest
      rfl rfl rfl (by decide) (by decide)).2.1,
   (drift_check_key_order_insensitive orderedManifest reorderedManifest
      rfl rfl rfl (by decide) (by decide)).2.2 "f.json" demoProject (by decide)⟩

end Rush
